import Mathlib

/-!
Verification of the `ssh_gpu_checker` repository.

A shallow embedding, in Lean 4, of the core of the `ssh_gpu_checker`
repository (package `ssh_gpu_monitor`): the per-host poll outcome mapping
(`AsyncGPUChecker.check_single_target`), the `nvidia-smi -q -x` output parser
(`AsyncGPUChecker.parse_gpu_info`), the connection opener
(`AsyncGPUChecker.open_connection`), the target-list generator
(`config_loader.generate_targets`), and the live table renderer
(`table_display.GPUTable`).

Python strings are modelled as Lean `String` (a wrapper around `List Char`,
matching Python's code-point view).  Python `str.split`, `str.strip`,
`str.startswith`, `str.removesuffix` and format-string padding are modelled
by the char-level functions below.  Python `dict` (insertion-ordered, unique
keys) is modelled as `List (String × String)` with `dictInsert`/`dictUpdate`.
External library calls (asyncssh, asyncio, `xml.etree`, `re`) enter the model
as explicitly enumerated outcomes (`RunResult`, `AwaitSpec`, `XmlInput`,
an abstract process-name filter `String → Bool`).
-/

namespace SshGpuChecker

/-! ## Python string primitives (char-level models) -/

/-- Whitespace as stripped by Python `str.strip()` (ASCII subset; all inputs
of interest contain only these whitespace characters). -/
def pySpace (c : Char) : Bool :=
  c = ' ' || c = '\t' || c = '\n' || c = '\r'

/-- Strip leading whitespace from a char list. -/
def trimLeftL (l : List Char) : List Char := l.dropWhile pySpace

/-- Strip trailing whitespace from a char list. -/
def trimRightL (l : List Char) : List Char := (trimLeftL l.reverse).reverse

/-- Model of Python `str.strip()` on char lists. -/
def pyStripL (l : List Char) : List Char := trimRightL (trimLeftL l)

/-- Model of Python `str.strip()`. -/
def pyStrip (s : String) : String := ⟨pyStripL s.data⟩

/-- Split a char list at every occurrence of the character `c`
(model of Python `str.split(sep)` for a one-character separator:
`n` separators give `n+1` pieces, empty pieces preserved). -/
def splitCharL (c : Char) : List Char → List (List Char)
  | [] => [[]]
  | a :: as =>
    match splitCharL c as with
    | [] => [[]]
    | p :: ps => if a = c then [] :: p :: ps else (a :: p) :: ps

/-- Model of Python `str.split(sep)` for a one-character separator. -/
def pySplit (c : Char) (s : String) : List String :=
  (splitCharL c s.data).map String.mk

/-- Model of Python `str.startswith(pre)`. -/
def pyStartsWith (pre s : String) : Bool := pre.data.isPrefixOf s.data

/-- Model of Python `str.removesuffix(suf)`. -/
def pyRemoveSuffix (suf s : String) : String :=
  if suf.data.isSuffixOf s.data then ⟨s.data.take (s.data.length - suf.data.length)⟩ else s

/-- `n` spaces. -/
def spacesL (n : Nat) : List Char := List.replicate n ' '

/-- Model of the Python format spec `{v:<n>}` on strings (left-justify,
pad with spaces to width `n`; strings longer than `n` are unchanged). -/
def padRight (s : String) (n : Nat) : String := ⟨s.data ++ spacesL (n - s.data.length)⟩

/-- Model of the Python format spec `{v:><n>}` (right-justify, pad with
spaces to width `n`). -/
def padLeft (s : String) (n : Nat) : String := ⟨spacesL (n - s.data.length) ++ s.data⟩

/-- Model of Python `str(b)` for a `bool`. -/
def pyBool (b : Bool) : String := if b then "True" else "False"

/-- Model of Python `'sep'.join(strings)` for a one-character separator. -/
def pyJoin (c : Char) : List String → String
  | [] => ""
  | [s] => s
  | s :: rest => ⟨s.data ++ c :: (pyJoin c rest).data⟩

/-- Does `sub` occur as a contiguous substring (model of `re.search` for a
pattern without metacharacters, e.g. `re.compile("p1").search(s)`)? -/
def containsSubL (pat : List Char) : List Char → Bool
  | [] => pat.isPrefixOf []
  | a :: as => pat.isPrefixOf (a :: as) || containsSubL pat as

/-- Substring occurrence test on `String`. -/
def containsSub (pat s : String) : Bool := containsSubL pat.data s.data

/-! ## XML document model (`xml.etree.ElementTree`)

`ET.fromstring` either raises `ET.ParseError` (the `malformed` case below)
or returns the root `Element`.  An `Element` has a tag, optional text and a
list of child elements — exactly what `parse_gpu_info` consumes via
`find`/`findall`/`.text`. -/

/-- An XML element: tag, optional text content, direct children. -/
inductive XmlNode where
  | elem (tag : String) (text : Option String) (children : List XmlNode)

/-- Tag of an element. -/
def XmlNode.tag : XmlNode → String
  | .elem t _ _ => t

/-- Text of an element (`Element.text`, `None` when absent). -/
def XmlNode.text : XmlNode → Option String
  | .elem _ t _ => t

/-- Children of an element. -/
def XmlNode.children : XmlNode → List XmlNode
  | .elem _ _ c => c

/-- Model of `Element.find(tag)`: first direct child with the given tag. -/
def XmlNode.findTag (n : XmlNode) (t : String) : Option XmlNode :=
  n.children.find? (fun c => c.tag = t)

/-- Model of `Element.findall(tag)`: all direct children with the given tag. -/
def XmlNode.findallTag (n : XmlNode) (t : String) : List XmlNode :=
  n.children.filter (fun c => c.tag = t)

/-- The outcome of `ET.fromstring(xml_output)`: either `ET.ParseError` with a
message (malformed document) or a parsed root element. -/
inductive XmlInput where
  | malformed (msg : String)
  | doc (root : XmlNode)

/-! ## `GPUInfo` (ssh_gpu_monitor/main.py, lines 21–37)

The Python `NamedTuple` declares `model : str`, but at runtime
`parse_gpu_info` stores `gpu.find('product_name').text` there, which is
`Optional[str]`; `model` is therefore modelled as `Option String`.
`__str__` formats `model` first, so a `None` model raises `TypeError`
("unsupported format string passed to NoneType.__format__") when the record
is rendered. -/

structure GPUInfo where
  model : Option String
  num_procs : Nat
  gpu_util : String
  used_mem : String
  total_mem : String
  deriving DecidableEq

/-- The line built by `GPUInfo.__str__` (for a present model string). -/
def renderLineStr (g : GPUInfo) : String :=
  padRight (g.model.getD "") 26 ++ " | Free: " ++ padRight (pyBool (g.num_procs == 0)) 5 ++
  " | Num Procs: " ++ padLeft (toString g.num_procs) 2 ++
  " | GPU Util: " ++ padLeft g.gpu_util 3 ++ " % | Memory: " ++
  padLeft g.used_mem 5 ++ " / " ++ padLeft g.total_mem 5 ++ " MiB"

/-- `GPUInfo.__str__`.  The `Except` error is the `TypeError` text raised by
formatting a `None` model with the `:26` format spec. -/
def GPUInfo.render (g : GPUInfo) : Except String String :=
  match g.model with
  | none => .error "unsupported format string passed to NoneType.__format__"
  | some _ => .ok (renderLineStr g)

/-- Render each record in turn, stopping at the first `TypeError` — Python's
`'\n'.join(map(str, gpu_infos))` evaluates `str` lazily, one record at a
time. -/
def renderAll : List GPUInfo → Except String (List String)
  | [] => .ok []
  | g :: gs =>
    match g.render with
    | .error e => .error e
    | .ok s => (renderAll gs).map (s :: ·)

/-- `'\n'.join(map(str, gpu_infos))` (ssh_gpu_monitor/main.py, line 166). -/
def joinRender (gs : List GPUInfo) : Except String String :=
  (renderAll gs).map (pyJoin '\n')

/-! ## `AsyncGPUChecker.parse_gpu_info` (ssh_gpu_monitor/main.py, lines 132–172) -/

/-- `str(AttributeError)` for `None.text`. -/
def attrErrText : String := "'NoneType' object has no attribute 'text'"

/-- `str(AttributeError)` for `None.find(...)`. -/
def attrErrFind : String := "'NoneType' object has no attribute 'find'"

/-- `str(AttributeError)` for `None.removesuffix(...)`. -/
def attrErrRemovesuffix : String := "'NoneType' object has no attribute 'removesuffix'"

/-- The body of the per-device `try` block (lines 142–160): parse one `<gpu>`
element.  Each attribute access on a missing element raises `AttributeError`,
modelled as `Except.error` with the runtime's message; evaluation order
follows the source lines. -/
def parseGpu (procFilter : String → Bool) (gpu : XmlNode) : Except String GPUInfo := do
  -- model = gpu.find('product_name').text
  let pn ← match gpu.findTag "product_name" with
    | none => .error attrErrText
    | some el => .ok el
  let model := pn.text
  -- processes = gpu.find('processes'); num_procs counting loop
  let num_procs :=
    match gpu.findTag "processes" with
    | none => 0
    | some ps =>
      ((ps.findallTag "process_info").filter (fun p =>
        match p.findTag "process_name" with
        | some pe =>
          match pe.text with
          | some t => procFilter t
          | none => false
        | none => false)).length
  -- gpu_util = gpu.find('utilization').find('gpu_util').text.removesuffix(' %')
  let util ← match gpu.findTag "utilization" with
    | none => .error attrErrFind
    | some u => .ok u
  let gu ← match util.findTag "gpu_util" with
    | none => .error attrErrText
    | some el => .ok el
  let guText ← match gu.text with
    | none => .error attrErrRemovesuffix
    | some t => .ok t
  let gpu_util := pyRemoveSuffix " %" guText
  -- memory_usage = gpu.find('fb_memory_usage')
  -- used_mem = memory_usage.find('used').text.removesuffix(' MiB')
  let mem ← match gpu.findTag "fb_memory_usage" with
    | none => .error attrErrFind
    | some m => .ok m
  let usedEl ← match mem.findTag "used" with
    | none => .error attrErrText
    | some el => .ok el
  let usedText ← match usedEl.text with
    | none => .error attrErrRemovesuffix
    | some t => .ok t
  -- total_mem = memory_usage.find('total').text.removesuffix(' MiB')
  let totalEl ← match mem.findTag "total" with
    | none => .error attrErrText
    | some el => .ok el
  let totalText ← match totalEl.text with
    | none => .error attrErrRemovesuffix
    | some t => .ok t
  pure ⟨model, num_procs, gpu_util, pyRemoveSuffix " MiB" usedText, pyRemoveSuffix " MiB" totalText⟩

/-- The `for gpu in root.findall('gpu')` loop (lines 141–163): collect the
records, returning early with the first device's `AttributeError`. -/
def parseGpus (procFilter : String → Bool) : List XmlNode → Except String (List GPUInfo)
  | [] => .ok []
  | g :: gs =>
    match parseGpu procFilter g with
    | .error e => .error e
    | .ok info => (parseGpus procFilter gs).map (info :: ·)

set_option linter.unusedVariables false in
/-- `AsyncGPUChecker.parse_gpu_info`.  Total: every fault becomes a tagged
string ("XML parse error: …" from `ET.ParseError`, "Error parsing GPU info: …"
from a per-device `AttributeError`, "Parse error: …" from any other exception
— in this model only the `TypeError` raised by rendering a `None` model). -/
def parse_gpu_info (procFilter : String → Bool) (machine_name : String) (x : XmlInput) : String :=
  match x with
  | .malformed e => "XML parse error: " ++ e
  | .doc root =>
    match parseGpus procFilter (root.findallTag "gpu") with
    | .error e => "Error parsing GPU info: " ++ e
    | .ok infos =>
      match joinRender infos with
      | .error e => "Parse error: " ++ e
      | .ok s => s

/-! ## `AsyncGPUChecker.check_single_target` (ssh_gpu_monitor/main.py, lines 96–130)

The awaited `conn.run('nvidia-smi -q -x', check=True)` is an external call;
its possible outcomes are enumerated by `RunResult`: `asyncio.TimeoutError`
(the `wait_for` bound), an `asyncssh.Error`, any other exception, or normal
completion with an exit status, raw stdout (handed to the XML parser) and
stderr. -/

inductive RunResult where
  | timeout
  | sshError (msg : String)
  | otherError (msg : String)
  | completed (exit_status : Int) (stdout : XmlInput) (stderr : String)

/-- `AsyncGPUChecker.check_single_target`: `self.connections` is modelled by
the list of hosts holding a stored connection; the returned singleton dict
`{target.host: status}` by a pair. -/
def check_single_target (connections : List String) (procFilter : String → Bool)
    (host : String) (r : RunResult) : String × String :=
  if connections.contains host = false then
    (host, "No connection")
  else
    match r with
    | .timeout => (host, "Timeout")
    | .sshError m => (host, "SSH Error: " ++ m)
    | .otherError m => (host, "Unexpected error: " ++ m)
    | .completed exit_status stdout stderr =>
      if exit_status != 0 then (host, "Command failed: " ++ stderr)
      else (host, parse_gpu_info procFilter host stdout)

/-- Written from the SPEC's words (sections 4.2 and 8), for refinement
comparison with `check_single_target`: a host with no stored connection
yields "No connection" (ignoring the remote call); otherwise, in priority
order, timeout → "Timeout", non-zero exit status → "Command failed: <stderr>",
transport-level error → "<ErrorKind>: <message>", success → delegate raw
stdout to the parser. -/
def specCheckStatus (connections : List String) (procFilter : String → Bool)
    (host : String) (r : RunResult) : String :=
  if connections.contains host = false then "No connection"
  else
    match r with
    | .timeout => "Timeout"
    | .completed exit_status stdout stderr =>
      if exit_status ≠ 0 then "Command failed: " ++ stderr
      else parse_gpu_info procFilter host stdout
    | .sshError m => "SSH Error: " ++ m
    | .otherError m => "Unexpected error: " ++ m

/-! ## `AsyncGPUChecker.open_connection` (ssh_gpu_monitor/main.py, lines 57–94)

Each awaited step (`forward_local_port`, `asyncssh.connect`) is modelled by
the wall-clock time it would need to complete plus its eventual result
(`AwaitSpec`); `asyncio.wait_for` with a budget turns that into timeout /
raised exception / value. -/

inductive AwaitRes (α : Type) where
  | raises (msg : String)
  | returns (val : α)

structure AwaitSpec (α : Type) where
  time : Rat
  res : AwaitRes α

inductive AwaitOutcome (α : Type) where
  | timeoutErr
  | raised (msg : String)
  | ok (val : α)

/-- `asyncio.wait_for(op, timeout=budget)`: `asyncio.TimeoutError` when the
operation needs longer than the budget, otherwise the operation's own
outcome. -/
def asyncio_wait_for {α : Type} (budget : Rat) (s : AwaitSpec α) : AwaitOutcome α :=
  if budget < s.time then .timeoutErr
  else
    match s.res with
    | .raises m => .raised m
    | .returns v => .ok v

/-- `AsyncGPUChecker.open_connection`: both awaits run under a budget of
`SSH_TIMEOUT/2`; `asyncio.TimeoutError` → "Connection timeout", any other
exception → "Connection error: <reason>", success stores the connection and
returns "Connected".  Returns the updated connection set and the singleton
result dict. -/
def open_connection (sshTimeout : Rat) (connections : List String) (host : String)
    (forwardPort : AwaitSpec Nat) (sshConnect : Nat → AwaitSpec Unit) :
    List String × (String × String) :=
  match asyncio_wait_for (sshTimeout / 2) forwardPort with
  | .timeoutErr => (connections, (host, "Connection timeout"))
  | .raised m => (connections, (host, "Connection error: " ++ m))
  | .ok tunnel_port =>
    match asyncio_wait_for (sshTimeout / 2) (sshConnect tunnel_port) with
    | .timeoutErr => (connections, (host, "Connection timeout"))
    | .raised m => (connections, (host, "Connection error: " ++ m))
    | .ok _ => (connections ++ [host], (host, "Connected"))

/-! ## `config_loader.Target` and `generate_targets` (src/config_loader.py, lines 11–62) -/

structure Target where
  host : String
  username : String
  key_path : String
  deriving DecidableEq

/-- An entry of `config['targets']['individual']`: either a bare hostname
string or a dict with optional `username`/`key_path` overrides. -/
inductive IndividualTarget where
  | plain (host : String)
  | withOverrides (host : String) (username : Option String) (key_path : Option String)
  deriving DecidableEq

/-- An entry of `config['targets']['patterns']`.  `pfx` models
`pattern['prefix']`; `fmt` models the format string `pattern['format']`,
applied as `format.format(prefix=…, number=…)` (Python string formatting is
external, so the format string enters the model as the function it
denotes). -/
structure PatternTarget where
  pfx : String
  fmt : String → Int → String
  start : Int
  stop : Int
  username : Option String
  key_path : Option String

/-- The slice of the loaded YAML/CLI config that `generate_targets` reads.
`Option` on the two target lists models `'individual' in config['targets']`
/ `'patterns' in config['targets']` key-presence tests. -/
structure Config where
  ssh_username : String
  ssh_key_path : String
  individual : Option (List IndividualTarget)
  patterns : Option (List PatternTarget)

/-- Model of Python `range(start, stop + 1)` as used at line 51
(`for x in range(pattern['start'], pattern['end'] + 1)`): ascending,
inclusive of both endpoints, empty when `stop < start`. -/
def intRange (start stop : Int) : List Int :=
  (List.range (stop + 1 - start).toNat).map (fun i => start + i)

/-- Resolve one individual entry against the ssh defaults (lines 24–35). -/
def resolveIndividual (default_username default_key_path : String) :
    IndividualTarget → Target
  | .plain h => ⟨h, default_username, default_key_path⟩
  | .withOverrides h u k => ⟨h, u.getD default_username, k.getD default_key_path⟩

/-- Expand one pattern entry (lines 38–52). -/
def expandPattern (default_username default_key_path : String) (p : PatternTarget) :
    List Target :=
  (intRange p.start p.stop).map
    (fun n => ⟨p.fmt p.pfx n, p.username.getD default_username, p.key_path.getD default_key_path⟩)

/-- The `targets` list before deduplication: individual entries first, then
every pattern expansion in order. -/
def allTargets (config : Config) : List Target :=
  (match config.individual with
   | none => []
   | some l => l.map (resolveIndividual config.ssh_username config.ssh_key_path)) ++
  (match config.patterns with
   | none => []
   | some l => (l.map (expandPattern config.ssh_username config.ssh_key_path)).flatten)

/-- The `seen`-set deduplication loop (lines 54–61): keep a target only when
its host has not occurred before. -/
def uniqueByHost (seen : List String) : List Target → List Target
  | [] => []
  | t :: ts =>
    if t.host ∈ seen then uniqueByHost seen ts
    else t :: uniqueByHost (t.host :: seen) ts

/-- `config_loader.generate_targets`. -/
def generate_targets (config : Config) : List Target :=
  uniqueByHost [] (allTargets config)

/-- First-occurrence-wins deduplication on plain host names (the spec-level
description of the `seen`-set loop, used to state what `generate_targets`
does to the host list). -/
def dedupFirst (seen : List String) : List String → List String
  | [] => []
  | h :: t => if h ∈ seen then dedupFirst seen t else h :: dedupFirst (h :: seen) t

/-! ## Python `dict` model

`dict.update` / item assignment on an insertion-ordered dict with unique
keys: replacing the value of an existing key keeps its position, a new key is
appended. -/

def dictInsert (d : List (String × String)) (k v : String) :
    List (String × String) :=
  if d.any (fun p => p.1 == k) then d.map (fun p => if p.1 == k then (p.1, v) else p)
  else d ++ [(k, v)]

/-- `d.update(nd)`: insert `nd`'s pairs left to right. -/
def dictUpdate (d nd : List (String × String)) : List (String × String) :=
  nd.foldl (fun acc p => dictInsert acc p.1 p.2) d

/-- `list(d.keys())`. -/
def pyKeys (d : List (String × String)) : List String := d.map Prod.fst

/-! ## `table_display.GPUTable` (src/table_display.py) -/

/-- The six tracked columns, in the order of the `columns` list at line 47. -/
inductive ColName where
  | hostname | statusModel | free | procs | gpuUtil | memory
  deriving DecidableEq

def colNames : List ColName :=
  [.hostname, .statusModel, .free, .procs, .gpuUtil, .memory]

/-- `self.max_widths` (one entry per column). -/
structure MaxWidths where
  hostname : Nat
  statusModel : Nat
  free : Nat
  procs : Nat
  gpuUtil : Nat
  memory : Nat
  deriving DecidableEq

def MaxWidths.get (w : MaxWidths) : ColName → Nat
  | .hostname => w.hostname
  | .statusModel => w.statusModel
  | .free => w.free
  | .procs => w.procs
  | .gpuUtil => w.gpuUtil
  | .memory => w.memory

def MaxWidths.set (w : MaxWidths) : ColName → Nat → MaxWidths
  | .hostname, n => { w with hostname := n }
  | .statusModel, n => { w with statusModel := n }
  | .free, n => { w with free := n }
  | .procs, n => { w with procs := n }
  | .gpuUtil, n => { w with gpuUtil := n }
  | .memory, n => { w with memory := n }

/-- The initial widths set in `GPUTable.__init__` (lines 13–20). -/
def initialMaxWidths : MaxWidths := ⟨20, 30, 5, 5, 6, 15⟩

/-- The placeholder cell value.  The source file literally contains the
three-character mojibake "â€”" (U+00E2 U+20AC U+201D, an em dash double-
encoded), used consistently for both the placeholder cells and the
`val != "â€”"` comparison. -/
def placeholderDash : String :=
  String.mk [Char.ofNat 0xE2, Char.ofNat 0x20AC, Char.ofNat 0x201D]

/-- One `max`-update of `update_max_widths`'s loop body (lines 50–52):
skip the placeholder, otherwise take the running maximum with `len(str(val))`
(code points). -/
def updW (w : MaxWidths) (col : ColName) (val : String) : MaxWidths :=
  if val == placeholderDash then w else w.set col (max (w.get col) val.data.length)

/-- `GPUTable.update_max_widths` (lines 45–52): zip the six columns with
`[hostname] + values` (`zip` truncates like Python's) and fold the
`max`-updates. -/
def update_max_widths (w : MaxWidths) (hostname : String) (values : List String) :
    MaxWidths :=
  (colNames.zip (hostname :: values)).foldl (fun w' p => updW w' p.1 p.2) w

/-- The exact-match status strings of lines 61 and 86. -/
def statusStrings : List String := ["Connecting", "Connected", "No connection"]

/-- The `startswith` status prefixes of lines 62 and 87. -/
def statusPrefixes : List String :=
  ["Connection", "Error", "Timeout", "SSH Error", "Unexpected error", "Parse error",
   "XML parse error"]

/-- The shared branch condition of both passes of `update_table`. -/
def statusIsStringy (status : String) : Bool :=
  statusStrings.contains status || statusPrefixes.any (fun p => pyStartsWith p status)

/-- `parts = [p.strip() for p in gpu_entry.split("|")]`. -/
def entryParts (gpu_entry : String) : List String :=
  (pySplit '|' gpu_entry).map pyStrip

/-- `s.split(":")[1].strip()`: `none` models the `IndexError` raised when the
split produces fewer than two pieces. -/
def colonSecond (s : String) : Option String :=
  match pySplit ':' s with
  | _ :: second :: _ => some (pyStrip second)
  | _ => none

/-- The shared cell extraction of both passes (lines 71–76 and 105–109),
applied to a parts list already known to have exactly five entries; `none`
models the `IndexError` from a missing `':'`. -/
def extractCells : List String → Option (String × String × String × String × String)
  | [model, p1, p2, p3, p4] => do
    let is_free ← colonSecond p1
    let num_procs ← colonSecond p2
    let gpu_util ← colonSecond p3
    let memory ← colonSecond p4
    some (model, is_free, num_procs, gpu_util, memory)
  | _ => none

/-- First pass, device branch (lines 65–78): update the widths entry by
entry; an `IndexError` hits the bare `except: pass`, abandoning the rest of
this host's width updates (entries with a part count other than five are
silently skipped by the `if len(parts) == 5` guard). -/
def firstPassEntries (w : MaxWidths) (hostname : String) : List String → MaxWidths
  | [] => w
  | e :: rest =>
    let parts := entryParts e
    if parts.length == 5 then
      match extractCells parts with
      | some (model, is_free, num_procs, gpu_util, memory) =>
        firstPassEntries
          (update_max_widths w hostname [model, is_free, num_procs, gpu_util, memory])
          hostname rest
      | none => w
    else
      firstPassEntries w hostname rest

/-- First pass of `update_table`, one host (lines 60–78). -/
def widthPassHost (w : MaxWidths) (hostname status : String) : MaxWidths :=
  if statusIsStringy status then
    update_max_widths w hostname
      [status, placeholderDash, placeholderDash, placeholderDash, placeholderDash]
  else
    firstPassEntries w hostname (pySplit '\n' status)

/-- Second pass, device branch (lines 97–131): one row per device entry, the
hostname label only on the first (`i == 0`); the rows already added stay in
the table when a later entry raises, and the handler then appends one
"Parse error: …" row carrying the full hostname. -/
def secondPassEntries (hostname : String) : List String → Nat → List (List String)
  | [], _ => []
  | e :: rest, i =>
    let parts := entryParts e
    if parts.length != 5 then
      [[hostname, "Parse error: Invalid format: expected 5 parts, got " ++
          toString parts.length,
        placeholderDash, placeholderDash, placeholderDash, placeholderDash]]
    else
      match extractCells parts with
      | none =>
        [[hostname, "Parse error: list index out of range",
          placeholderDash, placeholderDash, placeholderDash, placeholderDash]]
      | some (model, is_free, num_procs, gpu_util, memory) =>
        [(if i == 0 then hostname else ""), model, is_free, num_procs, gpu_util, memory] ::
          secondPassEntries hostname rest (i + 1)

/-- First pass of `update_table` over the whole `self.data` (lines 59–78),
in insertion order. -/
def widthPassData (w : MaxWidths) (data : List (String × String)) : MaxWidths :=
  data.foldl (fun w' p => widthPassHost w' p.1 p.2) w

/-- Second pass of `update_table`, one host (lines 84–142). -/
def rowsForHost (hostname status : String) : List (List String) :=
  if statusIsStringy status then
    [[hostname, status, placeholderDash, placeholderDash, placeholderDash, placeholderDash]]
  else
    secondPassEntries hostname (pySplit '\n' status) 0

/-- Lexicographic `≤` on code-point sequences: Python's string comparison. -/
def lexLe : List Char → List Char → Bool
  | [], _ => true
  | _ :: _, [] => false
  | a :: as, b :: bs =>
    if a.toNat < b.toNat then true
    else if b.toNat < a.toNat then false
    else lexLe as bs

/-- Python's `<=` on strings (code-point lexicographic). -/
def pyStrLe (a b : String) : Bool := lexLe a.data b.data

/-- Insert a pair into a key-sorted list, before the first entry whose key is
not smaller (stable insertion). -/
def insertByKey (p : String × String) : List (String × String) → List (String × String)
  | [] => [p]
  | q :: qs => if pyStrLe p.1 q.1 then p :: q :: qs else q :: insertByKey p qs

/-- `sorted(self.data.items())` (line 84): ascending, stable (a stable
insertion sort; dict keys are unique, so comparing keys agrees with Python's
tuple comparison). -/
def sortByKey : List (String × String) → List (String × String)
  | [] => []
  | p :: ps => insertByKey p (sortByKey ps)

/-- The renderer state: tracked maximum widths plus the accumulated
host→status data (`self.max_widths`, `self.data`). -/
structure GPUTableState where
  max_widths : MaxWidths
  data : List (String × String)
  deriving DecidableEq

/-- `GPUTable.__init__`. -/
def initTable : GPUTableState := ⟨initialMaxWidths, []⟩

/-- `GPUTable.update_table(new_data)`: merge, recompute widths over all
current data (first pass), rebuild the table rows from scratch in ascending
hostname order (second pass).  Returns the new state and the rows of the
rebuilt table (the cell contents of `self.raw_table`). -/
def update_table (st : GPUTableState) (new_data : List (String × String)) :
    GPUTableState × List (List String) :=
  let data' := dictUpdate st.data new_data
  (⟨widthPassData st.max_widths data', data'⟩,
   ((sortByKey data').map (fun p => rowsForHost p.1 p.2)).flatten)

/-! ## The controller's snapshot (`AsyncGPUChecker.run`, lines 174–259)

Only the evolution of the table's `self.data` mapping matters for the
key-set invariant: the initial "Connecting" fill, the per-target connection
results (each merged on its own), and one merged dict per poll round.
`open_connection` and `check_single_target` are total (they never raise), so
`asyncio.gather(..., return_exceptions=True)` always delivers one result
dict per target, in target-list order. -/

/-- `initial_data = {target.host: "Connecting" for target in self.targets}`
(line 183): a dict comprehension builds an insertion-ordered dict. -/
def initialData (targets : List Target) : List (String × String) :=
  dictUpdate [] (targets.map (fun t => (t.host, "Connecting")))

/-- The connection-results loop (lines 205–209): one `update_table` call per
singleton result dict. -/
def connectionPhase (targets : List Target) (connStatus : Target → String)
    (d : List (String × String)) : List (String × String) :=
  targets.foldl (fun acc t => dictUpdate acc [(t.host, connStatus t)]) d

/-- One poll round's merged result dict (lines 219–228):
`data = {}` followed by `data.update(result)` per target. -/
def pollRoundData (targets : List Target) (f : Target → String) :
    List (String × String) :=
  dictUpdate [] (targets.map (fun t => (t.host, f t)))

/-- The table's `self.data` after startup (initial fill + connection phase)
and an arbitrary sequence of poll rounds, each round summarised by the
status function it produced. -/
def runSnapshot (targets : List Target) (connStatus : Target → String)
    (rounds : List (Target → String)) : List (String × String) :=
  rounds.foldl (fun d f => dictUpdate d (pollRoundData targets f))
    (connectionPhase targets connStatus (dictUpdate [] (initialData targets)))

/-! ## Claim-side definitions (written from the claims' words) and concrete
example inputs used by the claim theorems -/

/-- `re.compile("p1").search(name) is not None` as a process-name filter
("the process-name filter set to p1"): the pattern has no metacharacters, so
it matches exactly when "p1" occurs as a substring. -/
def filterP1 (s : String) : Bool := containsSub "p1" s

/-- A `<process_info>` node holding one `<process_name>`. -/
def procNode (name : String) : XmlNode :=
  .elem "process_info" none [.elem "process_name" (some name) []]

/-- The device node of the spec's parser test: model "Tesla", utilization
"42 %", memory "100 MiB" / "16000 MiB", processes p1 and p2. -/
def gpuTesla : XmlNode :=
  .elem "gpu" none [
    .elem "product_name" (some "Tesla") [],
    .elem "processes" none [procNode "p1", procNode "p2"],
    .elem "utilization" none [.elem "gpu_util" (some "42 %") []],
    .elem "fb_memory_usage" none
      [.elem "used" (some "100 MiB") [], .elem "total" (some "16000 MiB") []]]

/-- A device node whose required model-name field is absent. -/
def gpuNoModel : XmlNode :=
  .elem "gpu" none [
    .elem "processes" none [],
    .elem "utilization" none [.elem "gpu_util" (some "7 %") []],
    .elem "fb_memory_usage" none
      [.elem "used" (some "0 MiB") [], .elem "total" (some "16000 MiB") []]]

/-- The record the spec's parser test expects. -/
def teslaRecord : GPUInfo := ⟨some "Tesla", 1, "42", "100", "16000"⟩

/-- The rendered line of `teslaRecord`. -/
def teslaLine : String := renderLineStr teslaRecord

/-- "{prefix}{number:02}": zero-pad the number to two digits (only ever
applied to small positive numbers here). -/
def fmtPfx02 (p : String) (n : Int) : String :=
  p ++ (if 0 ≤ n && n < 10 then "0" ++ toString n.toNat else toString n)

/-- The spec's pattern-target example:
`{prefix: "gpu", format: "{prefix}{number:02}", start: 1, end: 3}`. -/
def cfgPatternEx : Config := ⟨"u", "k", none, some [⟨"gpu", fmtPfx02, 1, 3, none, none⟩]⟩

/-- The spec's duplicate-individual example: `["gpuA", "gpuA"]`. -/
def cfgDupEx : Config := ⟨"u", "k", some [.plain "gpuA", .plain "gpuA"], none⟩

/-- A record whose model is clean but whose utilization string contains a
`'|'` — accepted by C10's stated precondition, rejected by the renderer. -/
def badUtilRecord : GPUInfo := ⟨some "Tesla", 0, "1|2", "100", "16000"⟩

/-- The cells C10 literally claims the renderer recovers from one record:
model, free flag, process count, utilization with the " %" suffix, and the
"used / total MiB" memory text. -/
def c10ClaimCells (g : GPUInfo) : List String :=
  [g.model.getD "", pyBool (g.num_procs == 0), toString g.num_procs,
   g.gpu_util ++ " %", g.used_mem ++ " / " ++ g.total_mem ++ " MiB"]

/-- The rows C10 literally claims: one row per record, hostname only on the
first. -/
def c10ClaimRows (host : String) : List GPUInfo → Nat → List (List String)
  | [], _ => []
  | g :: gs, i =>
    ((if i == 0 then host else "") :: c10ClaimCells g) :: c10ClaimRows host gs (i + 1)

/-- The cells the amended C10 claims the renderer recovers from one record:
model, free flag, process count, utilization with the " %" suffix, and the
"used / total MiB" memory text (total right-justified to width 5, as the
record formatting prints it). -/
def c10Cells (g : GPUInfo) : List String :=
  [g.model.getD "", pyBool (g.num_procs == 0), toString g.num_procs,
   g.gpu_util ++ " %", g.used_mem ++ " / " ++ padLeft g.total_mem 5 ++ " MiB"]

/-- The rows C10 claims: one row per record, the hostname only on the first. -/
def c10ExpectedRows (host : String) : List GPUInfo → Nat → List (List String)
  | [], _ => []
  | g :: gs, i =>
    ((if i == 0 then host else "") :: c10Cells g) :: c10ExpectedRows host gs (i + 1)

/-- A "value" field (utilization / used memory) the renderer can invert:
non-empty, not starting with whitespace, and free of `'|'`, `'\n'` and
`':'`. -/
def goodValueB (s : String) : Bool :=
  match s.data with
  | [] => false
  | c :: _ => !pySpace c && s.data.all (fun ch => ch ≠ '|' && ch ≠ '\n' && ch ≠ ':')

/-- A model string the renderer can invert: no surrounding whitespace and
free of `'|'` and `'\n'`. -/
def goodModelB (s : String) : Bool :=
  pyStrip s == s && s.data.all (fun ch => ch ≠ '|' && ch ≠ '\n')

/-- A total-memory string the renderer can invert: free of `'|'`, `'\n'`
and `':'`. -/
def goodTotalB (s : String) : Bool :=
  s.data.all (fun ch => ch ≠ '|' && ch ≠ '\n' && ch ≠ ':')

/-- The per-record precondition of the amended C10. -/
def c10GoodB (g : GPUInfo) : Bool :=
  g.model.isSome && goodModelB (g.model.getD "") && goodValueB g.gpu_util &&
  goodValueB g.used_mem && goodTotalB g.total_mem

/-- The record list of the C10 witness. -/
def c10WitnessRecords : List GPUInfo :=
  [⟨some "Tesla", 0, "42", "100", "16000"⟩, ⟨some "A100", 3, "7", "5", "40960"⟩]

/-- C10 refutation instances: each satisfies the claim's stated precondition
(model free of `'|'` and newlines) yet the renderer does not recover the
claimed cells. -/
def c10exNewlineUtil : GPUInfo := ⟨some "Tesla", 0, "4\n2", "100", "16000"⟩

def c10exColonUtil : GPUInfo := ⟨some "Tesla", 0, "4:2", "100", "16000"⟩

def c10exLeadSpaceUtil : GPUInfo := ⟨some "Tesla", 0, " 42", "100", "16000"⟩

def c10exSpaceModel : GPUInfo := ⟨some " Tesla", 0, "42", "100", "16000"⟩

def c10exShortTotal : GPUInfo := ⟨some "Tesla", 0, "42", "100", "160"⟩

def c10exErrorModel : GPUInfo := ⟨some "Error-prone", 0, "42", "100", "16000"⟩

/-- Feed one record's successful parser output to a fresh table as host "h"
and return the produced rows. -/
def c10FeedRows (g : GPUInfo) : List (List String) :=
  (update_table initTable [("h", (joinRender [g]).toOption.getD "")]).2

/-- The five `'|'`-separated segments of a rendered `GPUInfo` line
(`renderLineStr`), used to analyse the renderer inversion. -/
def c10Seg0 (g : GPUInfo) : List Char :=
  (g.model.getD "").data ++ spacesL (26 - (g.model.getD "").data.length) ++ [' ']

def c10Seg1 (g : GPUInfo) : List Char :=
  (" Free: " : String).data ++ (pyBool (g.num_procs == 0)).data ++
    spacesL (5 - (pyBool (g.num_procs == 0)).data.length) ++ [' ']

def c10Seg2 (g : GPUInfo) : List Char :=
  (" Num Procs: " : String).data ++ spacesL (2 - (toString g.num_procs).data.length) ++
    (toString g.num_procs).data ++ [' ']

def c10Seg3 (g : GPUInfo) : List Char :=
  (" GPU Util: " : String).data ++ spacesL (3 - g.gpu_util.data.length) ++
    g.gpu_util.data ++ (" % " : String).data

def c10Seg4 (g : GPUInfo) : List Char :=
  (" Memory: " : String).data ++ spacesL (5 - g.used_mem.data.length) ++
    g.used_mem.data ++ (" / " : String).data ++
    spacesL (5 - g.total_mem.data.length) ++ g.total_mem.data ++ (" MiB" : String).data

/-- The last value a key receives from an update list (its current value when
the key does not occur): used to characterise repeated `dict.update`s. -/
def lastVal (nd : List (String × String)) (k : String) (w : String) : String :=
  nd.foldl (fun acc p => if p.1 == k then p.2 else acc) w

/-! ## Helper lemmas -/

/-- The per-device loop stops at the first failing device and returns its
error. -/
theorem parseGpus_first_error (procFilter : String → Bool) (pre post : List XmlNode)
    (bad : XmlNode) (e : String)
    (hpre : ∀ g ∈ pre, ∃ i, parseGpu procFilter g = .ok i)
    (hbad : parseGpu procFilter bad = .error e) :
    parseGpus procFilter (pre ++ bad :: post) = .error e := by
  induction pre with
  | nil => simp [parseGpus, hbad]
  | cons g gs ih =>
    obtain ⟨i, hi⟩ := hpre g (by simp)
    have := ih (fun g' hg' => hpre g' (by simp [hg']))
    simp [parseGpus, hi, this, Except.map]

/-- Arithmetic fact used to discharge the C5 witness's timeout hypothesis. -/
theorem half_of_one_lt_one : (1 : Rat) / 2 < 1 := by norm_num

/-- The host list of the deduplicated targets is the first-wins
deduplication of the host list. -/
theorem uniqueByHost_map_host (seen : List String) (ts : List Target) :
    (uniqueByHost seen ts).map Target.host = dedupFirst seen (ts.map Target.host) := by
  induction ts generalizing seen with
  | nil => rfl
  | cons t ts ih =>
    by_cases h : t.host ∈ seen <;> simp [uniqueByHost, dedupFirst, h, ih]

/-- `dedupFirst` yields a duplicate-free list avoiding the seen set. -/
theorem dedupFirst_nodup (l : List String) :
    ∀ seen, (dedupFirst seen l).Nodup ∧ ∀ h ∈ dedupFirst seen l, h ∉ seen := by
  induction l with
  | nil => intro seen; simp [dedupFirst]
  | cons a t ih =>
    intro seen
    by_cases h : a ∈ seen
    · simpa [dedupFirst, h] using ih seen
    · obtain ⟨hnd, hmem⟩ := ih (a :: seen)
      refine ⟨?_, ?_⟩
      · simp only [dedupFirst, if_neg h, List.nodup_cons]
        exact ⟨fun hx => (hmem a hx) (by simp), hnd⟩
      · intro x hx
        simp only [dedupFirst, if_neg h, List.mem_cons] at hx
        rcases hx with rfl | hx
        · exact h
        · exact fun hs => (hmem x hx) (by simp [hs])

/-- The hosts produced by `generate_targets` are duplicate-free. -/
theorem generate_targets_hosts_nodup (config : Config) :
    ((generate_targets config).map Target.host).Nodup := by
  rw [generate_targets, uniqueByHost_map_host]
  exact (dedupFirst_nodup ((allTargets config).map Target.host) []).1

/-- The `any`-test of `dictInsert` decides key membership. -/
theorem any_key_true_iff (d : List (String × String)) (k : String) :
    d.any (fun p => p.1 == k) = true ↔ k ∈ pyKeys d := by
  simp [pyKeys, List.any_eq_true, List.mem_map]

/-- Inserting an existing key keeps the key list unchanged. -/
theorem pyKeys_dictInsert_mem (d : List (String × String)) (k v : String)
    (h : k ∈ pyKeys d) : pyKeys (dictInsert d k v) = pyKeys d := by
  unfold dictInsert
  rw [if_pos (any_key_true_iff d k |>.mpr h)]
  unfold pyKeys
  rw [List.map_map]
  congr 1
  funext p
  by_cases hp : p.1 == k <;> simp [Function.comp, hp]

/-- Inserting a new key appends it to the key list. -/
theorem pyKeys_dictInsert_not_mem (d : List (String × String)) (k v : String)
    (h : k ∉ pyKeys d) : pyKeys (dictInsert d k v) = pyKeys d ++ [k] := by
  unfold dictInsert
  rw [if_neg (fun hc => h (any_key_true_iff d k |>.mp hc))]
  simp [pyKeys]

/-- Updating with pairs whose keys all exist leaves the key list
unchanged. -/
theorem pyKeys_dictUpdate_of_subset (nd : List (String × String)) :
    ∀ d, (∀ p ∈ nd, p.1 ∈ pyKeys d) → pyKeys (dictUpdate d nd) = pyKeys d := by
  induction nd with
  | nil => intro d _; rfl
  | cons p rest ih =>
    intro d h
    have h0 : p.1 ∈ pyKeys d := h p (by simp)
    have hins : pyKeys (dictInsert d p.1 p.2) = pyKeys d :=
      pyKeys_dictInsert_mem d p.1 p.2 h0
    have : dictUpdate d (p :: rest) = dictUpdate (dictInsert d p.1 p.2) rest := by
      simp [dictUpdate]
    rw [this, ih _ (fun q hq => by rw [hins]; exact h q (by simp [hq])), hins]

/-- Every key of an updated dict comes from the dict or from the update
list. -/
theorem pyKeys_dictUpdate_subset (nd : List (String × String)) :
    ∀ d a, a ∈ pyKeys (dictUpdate d nd) → a ∈ pyKeys d ∨ a ∈ nd.map Prod.fst := by
  induction nd with
  | nil => intro d a ha; exact Or.inl ha
  | cons p rest ih =>
    intro d a ha
    have hstep : dictUpdate d (p :: rest) = dictUpdate (dictInsert d p.1 p.2) rest := by
      simp [dictUpdate]
    rw [hstep] at ha
    rcases ih _ a ha with h | h
    · by_cases hk : p.1 ∈ pyKeys d
      · rw [pyKeys_dictInsert_mem d p.1 p.2 hk] at h
        exact Or.inl h
      · rw [pyKeys_dictInsert_not_mem d p.1 p.2 hk] at h
        rcases List.mem_append.mp h with h | h
        · exact Or.inl h
        · simp at h
          exact Or.inr (by simp [h])
    · exact Or.inr (by simp [h])

/-- Updating an empty-key-overlap, duplicate-free list appends it
verbatim. -/
theorem dictUpdate_append_of_fresh (l : List (String × String)) :
    ∀ d, (l.map Prod.fst).Nodup → (∀ p ∈ l, p.1 ∉ pyKeys d) →
      dictUpdate d l = d ++ l := by
  induction l with
  | nil => intro d _ _; simp [dictUpdate]
  | cons p rest ih =>
    intro d hnd hdisj
    have hk : p.1 ∉ pyKeys d := hdisj p (by simp)
    have hins : dictInsert d p.1 p.2 = d ++ [p] := by
      unfold dictInsert
      rw [if_neg (fun hc => hk (any_key_true_iff d p.1 |>.mp hc))]
    have hstep : dictUpdate d (p :: rest) = dictUpdate (dictInsert d p.1 p.2) rest := by
      simp [dictUpdate]
    have hnd' : (p.1 :: rest.map Prod.fst).Nodup := by simpa using hnd
    rw [hstep, hins, ih (d ++ [p]) hnd'.of_cons ?_]
    · simp
    · intro q hq
      have hq1 : q.1 ≠ p.1 := fun he =>
        (List.nodup_cons.mp hnd').1 (he ▸ List.mem_map_of_mem Prod.fst hq)
      have hq2 : q.1 ∉ pyKeys d := hdisj q (List.mem_cons_of_mem p hq)
      have hkeys : pyKeys (d ++ [p]) = pyKeys d ++ [p.1] := by simp [pyKeys]
      rw [hkeys]
      intro hmem
      rcases List.mem_append.mp hmem with h | h
      · exact hq2 h
      · exact hq1 (by simpa using h)

/-- Building a dict from a duplicate-free pair list reproduces the list. -/
theorem dictUpdate_nil_of_nodup (l : List (String × String))
    (hnd : (l.map Prod.fst).Nodup) : dictUpdate [] l = l := by
  have := dictUpdate_append_of_fresh l [] hnd (by intro p _; simp [pyKeys])
  simpa using this

/-! ## Claims -/

/-- **C1** For every host in a poll round, `check_single_target` follows the
spec's priority mapping: no stored connection → "No connection" (and the
result is independent of the remote call's outcome, i.e. no remote call is
consulted); timeout → "Timeout"; non-zero exit status → "Command failed:
<stderr>"; transport-level error → "<ErrorKind>: <message>"; success →
delegate raw stdout to the parser.  Stated as equality with
`specCheckStatus`, the mapping written from the spec's words. -/
theorem c1_check_single_target_outcome_mapping
    (connections : List String) (procFilter : String → Bool) (host : String)
    (r r' : RunResult) :
    check_single_target connections procFilter host r =
      (host, specCheckStatus connections procFilter host r) ∧
    (connections.contains host = false →
      check_single_target connections procFilter host r =
        check_single_target connections procFilter host r') := by
  constructor
  · by_cases hm : host ∈ connections
    · cases r with
      | timeout => simp [check_single_target, specCheckStatus, hm]
      | sshError m => simp [check_single_target, specCheckStatus, hm]
      | otherError m => simp [check_single_target, specCheckStatus, hm]
      | completed es out err =>
        by_cases he : es = 0 <;> simp [check_single_target, specCheckStatus, hm, he]
    · simp [check_single_target, specCheckStatus, hm]
  · intro h
    have hm : ¬ host ∈ connections := by simpa using h
    simp [check_single_target, hm]

/-- Witness for C1: with no stored connection the result does not depend on
the remote call's outcome. -/
theorem c1_witness :
    check_single_target [] filterP1 "h" RunResult.timeout =
      check_single_target [] filterP1 "h" (RunResult.sshError "x") :=
  (c1_check_single_target_outcome_mapping [] filterP1 "h" RunResult.timeout
    (RunResult.sshError "x")).2 (by decide)

/-- **C2** `parse_gpu_info` is total (the Lean model returns a `String` for
every input), and its result is either the successful join of the parsed
device records or an error-tagged string ("XML parse error: …" for a
malformed tree, "Error parsing GPU info: …" for a per-device fault,
"Parse error: …" for any other fault). -/
theorem c2_parse_gpu_info_total (procFilter : String → Bool) (machine_name : String)
    (x : XmlInput) :
    (∃ root infos, x = XmlInput.doc root ∧
       parseGpus procFilter (root.findallTag "gpu") = .ok infos ∧
       joinRender infos = .ok (parse_gpu_info procFilter machine_name x)) ∨
    (∃ e, parse_gpu_info procFilter machine_name x = "XML parse error: " ++ e) ∨
    (∃ e, parse_gpu_info procFilter machine_name x = "Error parsing GPU info: " ++ e) ∨
    (∃ e, parse_gpu_info procFilter machine_name x = "Parse error: " ++ e) := by
  cases x with
  | malformed e => exact Or.inr (Or.inl ⟨e, rfl⟩)
  | doc root =>
    cases h1 : parseGpus procFilter (root.findallTag "gpu") with
    | error e =>
      exact Or.inr (Or.inr (Or.inl ⟨e, by simp [parse_gpu_info, h1]⟩))
    | ok infos =>
      cases h2 : joinRender infos with
      | error e =>
        exact Or.inr (Or.inr (Or.inr ⟨e, by simp [parse_gpu_info, h1, h2]⟩))
      | ok s =>
        exact Or.inl ⟨root, infos, rfl, h1, by simp [parse_gpu_info, h1, h2]⟩

/-- **C3** If any one device node fails to parse (the first failing one
raising error `e`), the whole host's result is the single parse-error string
for `e` — the sibling devices' successfully parsed records are not
emitted. -/
theorem c3_single_error_for_whole_host (procFilter : String → Bool)
    (machine_name : String) (root : XmlNode) (pre post : List XmlNode)
    (bad : XmlNode) (e : String)
    (hsplit : root.findallTag "gpu" = pre ++ bad :: post)
    (hpre : ∀ g ∈ pre, ∃ i, parseGpu procFilter g = .ok i)
    (hbad : parseGpu procFilter bad = .error e) :
    parse_gpu_info procFilter machine_name (.doc root) =
      "Error parsing GPU info: " ++ e := by
  simp [parse_gpu_info, hsplit,
    parseGpus_first_error procFilter pre post bad e hpre hbad]

/-- Witness for C3: a document whose second device lacks the model-name
field yields the single error string, and the first device's parsed record
is not emitted. -/
theorem c3_witness :
    parse_gpu_info filterP1 "host"
      (.doc (.elem "nvidia_smi_log" none [gpuTesla, gpuNoModel])) =
      "Error parsing GPU info: " ++ attrErrText :=
  c3_single_error_for_whole_host filterP1 "host"
    (.elem "nvidia_smi_log" none [gpuTesla, gpuNoModel]) [gpuTesla] [] gpuNoModel
    attrErrText rfl
    (by
      intro g hg
      rw [List.mem_singleton] at hg
      subst hg
      exact ⟨teslaRecord, rfl⟩)
    rfl

/-- **C5** `open_connection` always returns one of "Connected",
"Connection timeout", "Connection error: <reason>" (it never raises), and
the forward-setup step is bounded by half the configured SSH timeout: if
port forwarding needs longer than `sshTimeout / 2`, the result is
"Connection timeout". -/
theorem c5_open_connection_shape (sshTimeout : Rat) (connections : List String)
    (host : String) (forwardPort : AwaitSpec Nat) (sshConnect : Nat → AwaitSpec Unit) :
    ((open_connection sshTimeout connections host forwardPort sshConnect).2.2 =
        "Connected" ∨
     (open_connection sshTimeout connections host forwardPort sshConnect).2.2 =
        "Connection timeout" ∨
     ∃ m, (open_connection sshTimeout connections host forwardPort sshConnect).2.2 =
        "Connection error: " ++ m) ∧
    (sshTimeout / 2 < forwardPort.time →
      (open_connection sshTimeout connections host forwardPort sshConnect).2.2 =
        "Connection timeout") := by
  constructor
  · cases h1 : asyncio_wait_for (sshTimeout / 2) forwardPort with
    | timeoutErr => exact Or.inr (Or.inl (by simp [open_connection, h1]))
    | raised m => exact Or.inr (Or.inr ⟨m, by simp [open_connection, h1]⟩)
    | ok p =>
      cases h2 : asyncio_wait_for (sshTimeout / 2) (sshConnect p) with
      | timeoutErr => exact Or.inr (Or.inl (by simp [open_connection, h1, h2]))
      | raised m => exact Or.inr (Or.inr ⟨m, by simp [open_connection, h1, h2]⟩)
      | ok u => exact Or.inl (by simp [open_connection, h1, h2])
  · intro h
    have h1 : asyncio_wait_for (sshTimeout / 2) forwardPort = .timeoutErr := by
      simp [asyncio_wait_for, h]
    simp [open_connection, h1]

/-- Witness for C5: an sshTimeout of 1 bounds the forward step by 1/2, so a
forward needing time 1 yields "Connection timeout". -/
theorem c5_witness :
    (open_connection 1 [] "h" ⟨1, .returns 0⟩ (fun _ => ⟨0, .returns ()⟩)).2.2 =
      "Connection timeout" :=
  (c5_open_connection_shape 1 [] "h" ⟨1, .returns 0⟩ (fun _ => ⟨0, .returns ()⟩)).2
    half_of_one_lt_one

/-- **C9, counterexample** The claim says a document with *two* device nodes
(the first being the Tesla node with processes p1/p2 and filter "p1") parses
to *one* DeviceRecord.  On the code, a document with two such device nodes
parses to two records (a two-line result), not one. -/
theorem c9_counterexample :
    parse_gpu_info filterP1 "host"
      (.doc (.elem "nvidia_smi_log" none [gpuTesla, gpuTesla])) =
      teslaLine ++ "\n" ++ teslaLine ∧
    teslaLine ++ "\n" ++ teslaLine ≠ teslaLine := by
  exact ⟨rfl, by decide⟩

/-- **C9, amended** For a document with *one* device node with model "Tesla",
utilization "42 %", memory "100 MiB"/"16000 MiB" and processes p1 (matching
the filter "p1") and p2 (not matching), the parser yields exactly the one
record ⟨"Tesla", 1, "42", "100", "16000"⟩ — unit suffixes stripped,
non-matching processes not counted — and the host's status is that record's
rendering. -/
theorem c9_amended_one_device_node :
    parseGpu filterP1 gpuTesla = .ok teslaRecord ∧
    parse_gpu_info filterP1 "host" (.doc (.elem "nvidia_smi_log" none [gpuTesla])) =
      teslaLine ∧
    teslaRecord.num_procs = 1 ∧ teslaRecord.gpu_util = "42" ∧
    teslaRecord.used_mem = "100" ∧ teslaRecord.total_mem = "16000" :=
  ⟨rfl, rfl, rfl, rfl, rfl, rfl⟩

/-- **C8** `generate_targets` yields individual targets followed by pattern
targets expanded over `[start, end]` inclusive in ascending order, then drops
later targets whose host duplicates an earlier one (first occurrence wins):
the host list is the first-wins deduplication of the full expansion list, a
pattern's host list is its format applied over the inclusive ascending range,
the spec's pattern example yields ["gpu01","gpu02","gpu03"], and the
duplicate individual list ["gpuA","gpuA"] collapses to one Target. -/
theorem c8_generate_targets (config : Config) :
    (generate_targets config).map Target.host =
      dedupFirst [] ((allTargets config).map Target.host) ∧
    (∀ du dk p, (expandPattern du dk p).map Target.host =
      (intRange p.start p.stop).map (fun n => p.fmt p.pfx n)) ∧
    (generate_targets cfgPatternEx).map Target.host = ["gpu01", "gpu02", "gpu03"] ∧
    generate_targets cfgDupEx = [⟨"gpuA", "u", "k"⟩] := by
  refine ⟨uniqueByHost_map_host [] (allTargets config), ?_, rfl, rfl⟩
  intro du dk p
  simp [expandPattern, List.map_map, Function.comp_def]

/-- **C4** The snapshot mapping's key set is exactly the configured target
hosts: the initial update inserts one "Connecting" entry per target, and
after the connection-result merges and any sequence of poll rounds the key
list still equals the target host list (no host added or removed). -/
theorem c4_snapshot_keys (config : Config) (connStatus : Target → String)
    (rounds : List (Target → String)) :
    pyKeys (runSnapshot (generate_targets config) connStatus rounds) =
      (generate_targets config).map Target.host ∧
    initialData (generate_targets config) =
      (generate_targets config).map (fun t => (t.host, "Connecting")) := by
  have hnd : ((generate_targets config).map Target.host).Nodup :=
    generate_targets_hosts_nodup config
  set ts := generate_targets config with hts
  have hmapfst : ∀ f : Target → String,
      (ts.map (fun t => (t.host, f t))).map Prod.fst = ts.map Target.host := by
    intro f
    simp [List.map_map, Function.comp_def]
  have hinit : initialData ts = ts.map (fun t => (t.host, "Connecting")) := by
    unfold initialData
    exact dictUpdate_nil_of_nodup _ (by rw [hmapfst]; exact hnd)
  have hinitkeys : pyKeys (dictUpdate [] (initialData ts)) = ts.map Target.host := by
    rw [hinit, dictUpdate_nil_of_nodup _ (by rw [hmapfst]; exact hnd)]
    exact hmapfst _
  have hconn : ∀ (l : List Target) (d : List (String × String)),
      (∀ t ∈ l, t.host ∈ pyKeys d) →
      pyKeys (l.foldl (fun acc t => dictUpdate acc [(t.host, connStatus t)]) d) =
        pyKeys d := by
    intro l
    induction l with
    | nil => intro d _; rfl
    | cons t rest ih =>
      intro d h
      have hstep : pyKeys (dictUpdate d [(t.host, connStatus t)]) = pyKeys d := by
        apply pyKeys_dictUpdate_of_subset
        intro p hp
        rw [List.mem_singleton] at hp
        subst hp
        exact h t (by simp)
      rw [List.foldl_cons, ih _ (fun u hu => by rw [hstep]; exact h u (by simp [hu])),
        hstep]
  have hconnkeys :
      pyKeys (connectionPhase ts connStatus (dictUpdate [] (initialData ts))) =
        ts.map Target.host := by
    unfold connectionPhase
    rw [hconn ts _ (fun t ht => by rw [hinitkeys]; exact List.mem_map_of_mem _ ht),
      hinitkeys]
  have hroundsub : ∀ (f : Target → String) (p : String × String),
      p ∈ pollRoundData ts f → p.1 ∈ ts.map Target.host := by
    intro f p hp
    have hk : p.1 ∈ pyKeys (pollRoundData ts f) := List.mem_map_of_mem _ hp
    rcases pyKeys_dictUpdate_subset _ _ _ hk with h | h
    · simp [pyKeys] at h
    · rw [hmapfst] at h
      exact h
  have hrounds : ∀ (rs : List (Target → String)) (d : List (String × String)),
      pyKeys d = ts.map Target.host →
      pyKeys (rs.foldl (fun d f => dictUpdate d (pollRoundData ts f)) d) =
        ts.map Target.host := by
    intro rs
    induction rs with
    | nil => intro d hd; simpa using hd
    | cons f rest ih =>
      intro d hd
      have hstep : pyKeys (dictUpdate d (pollRoundData ts f)) = ts.map Target.host := by
        rw [pyKeys_dictUpdate_of_subset _ _
          (fun p hp => by rw [hd]; exact hroundsub f p hp)]
        exact hd
      rw [List.foldl_cons]
      exact ih _ hstep
  exact ⟨hrounds rounds _ hconnkeys, hinit⟩

/-! ### Width lemmas (for C6 and C7) -/

theorem MaxWidths.get_set (w : MaxWidths) (c : ColName) (n : Nat) (col : ColName) :
    (w.set c n).get col = if col = c then n else w.get col := by
  cases c <;> cases col <;> simp [MaxWidths.get, MaxWidths.set]

theorem MaxWidths.set_get_self (w : MaxWidths) (c : ColName) :
    w.set c (w.get c) = w := by
  cases c <;> rfl

/-- One `max`-update never decreases any width. -/
theorem updW_mono (w : MaxWidths) (c : ColName) (v : String) (col : ColName) :
    w.get col ≤ (updW w c v).get col := by
  unfold updW
  by_cases h : v == placeholderDash
  · rw [if_pos h]
  · rw [if_neg h, MaxWidths.get_set]
    by_cases hc : col = c
    · subst hc
      simp
    · rw [if_neg hc]

/-- A fold of `max`-updates never decreases any width. -/
theorem foldl_updW_mono (L : List (ColName × String)) :
    ∀ w col, w.get col ≤ (L.foldl (fun a p => updW a p.1 p.2) w).get col := by
  induction L with
  | nil => intro w col; exact le_refl _
  | cons p rest ih =>
    intro w col
    rw [List.foldl_cons]
    exact le_trans (updW_mono w p.1 p.2 col) (ih (updW w p.1 p.2) col)

theorem update_max_widths_mono (w : MaxWidths) (hostname : String)
    (values : List String) (col : ColName) :
    w.get col ≤ (update_max_widths w hostname values).get col :=
  foldl_updW_mono _ w col

theorem firstPassEntries_mono (es : List String) :
    ∀ w hostname col, w.get col ≤ (firstPassEntries w hostname es).get col := by
  induction es with
  | nil => intro w h col; exact le_refl _
  | cons e rest ih =>
    intro w h col
    rw [firstPassEntries]
    split
    · split
      · exact le_trans (update_max_widths_mono w h _ col) (ih _ h col)
      · exact le_refl _
    · exact ih w h col

theorem widthPassHost_mono (w : MaxWidths) (hostname status : String) (col : ColName) :
    w.get col ≤ (widthPassHost w hostname status).get col := by
  unfold widthPassHost
  split
  · exact update_max_widths_mono w hostname _ col
  · exact firstPassEntries_mono _ w hostname col

theorem widthPassData_mono (data : List (String × String)) :
    ∀ w col, w.get col ≤ (widthPassData w data).get col := by
  induction data with
  | nil => intro w col; exact le_refl _
  | cons p rest ih =>
    intro w col
    unfold widthPassData at *
    rw [List.foldl_cons]
    exact le_trans (widthPassHost_mono w p.1 p.2 col) (ih _ col)

/-- A width state dominating a completed fold of `max`-updates absorbs the
same fold. -/
theorem foldl_updW_absorb (L : List (ColName × String)) :
    ∀ w w', (∀ col, (L.foldl (fun a p => updW a p.1 p.2) w).get col ≤ w'.get col) →
      L.foldl (fun a p => updW a p.1 p.2) w' = w' := by
  induction L with
  | nil => intro w w' _; rfl
  | cons p rest ih =>
    intro w w' h
    rw [List.foldl_cons] at h
    have hup : updW w' p.1 p.2 = w' := by
      unfold updW
      by_cases hph : p.2 == placeholderDash
      · rw [if_pos hph]
      · rw [if_neg hph]
        have h1 : p.2.data.length ≤ (updW w p.1 p.2).get p.1 := by
          unfold updW
          rw [if_neg hph, MaxWidths.get_set, if_pos rfl]
          exact le_max_right _ _
        have h2 : p.2.data.length ≤ w'.get p.1 :=
          le_trans h1 (le_trans (foldl_updW_mono rest (updW w p.1 p.2) p.1) (h p.1))
        rw [max_eq_left h2, MaxWidths.set_get_self]
    rw [List.foldl_cons, hup]
    exact ih (updW w p.1 p.2) w' h

theorem update_max_widths_absorb (hostname : String) (values : List String)
    (w w' : MaxWidths)
    (h : ∀ col, (update_max_widths w hostname values).get col ≤ w'.get col) :
    update_max_widths w' hostname values = w' :=
  foldl_updW_absorb _ w w' h

theorem firstPassEntries_absorb (es : List String) :
    ∀ (hostname : String) (w w' : MaxWidths),
      (∀ col, (firstPassEntries w hostname es).get col ≤ w'.get col) →
      firstPassEntries w' hostname es = w' := by
  induction es with
  | nil => intro hostname w w' _; rfl
  | cons e rest ih =>
    intro hostname w w' h
    rw [firstPassEntries]
    rw [firstPassEntries] at h
    split
    case isTrue hlen =>
      rw [if_pos hlen] at h
      cases hext : extractCells (entryParts e) with
      | none =>
        simp only [hext]
      | some cells =>
        simp only [hext] at h ⊢
        obtain ⟨model, is_free, num_procs, gpu_util, memory⟩ := cells
        have habs : update_max_widths w' hostname
            [model, is_free, num_procs, gpu_util, memory] = w' := by
          apply update_max_widths_absorb hostname _ w w'
          intro col
          exact le_trans (firstPassEntries_mono rest _ hostname col) (h col)
        rw [habs]
        exact ih hostname (update_max_widths w hostname
          [model, is_free, num_procs, gpu_util, memory]) w' h
    case isFalse hlen =>
      rw [if_neg hlen] at h
      exact ih hostname w w' h

theorem widthPassHost_absorb (hostname status : String) (w w' : MaxWidths)
    (h : ∀ col, (widthPassHost w hostname status).get col ≤ w'.get col) :
    widthPassHost w' hostname status = w' := by
  unfold widthPassHost at *
  split
  case isTrue hs =>
    rw [if_pos hs] at h
    exact update_max_widths_absorb hostname _ w w' h
  case isFalse hs =>
    rw [if_neg hs] at h
    exact firstPassEntries_absorb _ hostname w w' h

theorem widthPassData_absorb (data : List (String × String)) :
    ∀ w w', (∀ col, (widthPassData w data).get col ≤ w'.get col) →
      widthPassData w' data = w' := by
  induction data with
  | nil => intro w w' _; rfl
  | cons p rest ih =>
    intro w w' h
    unfold widthPassData at *
    rw [List.foldl_cons] at h ⊢
    have hup : widthPassHost w' p.1 p.2 = w' := by
      apply widthPassHost_absorb p.1 p.2 w w'
      intro col
      exact le_trans (widthPassData_mono rest (widthPassHost w p.1 p.2) col) (h col)
    rw [hup]
    exact ih (widthPassHost w p.1 p.2) w' h

/-- **C7** The six tracked column widths are monotonically non-decreasing:
one `update_table` call never shrinks any width, and along any sequence of
calls every width is at least its initial value. -/
theorem c7_widths_monotone (calls : List (List (String × String)))
    (st : GPUTableState) (col : ColName) :
    (∀ nd, st.max_widths.get col ≤ (update_table st nd).1.max_widths.get col) ∧
    st.max_widths.get col ≤
      ((calls.foldl (fun s nd => (update_table s nd).1) st).max_widths.get col) := by
  have hsingle : ∀ (s : GPUTableState) (nd : List (String × String)),
      s.max_widths.get col ≤ (update_table s nd).1.max_widths.get col := by
    intro s nd
    exact widthPassData_mono (dictUpdate s.data nd) s.max_widths col
  have hfold : ∀ (cs : List (List (String × String))) (s : GPUTableState),
      s.max_widths.get col ≤
        ((cs.foldl (fun s' nd => (update_table s' nd).1) s).max_widths.get col) := by
    intro cs
    induction cs with
    | nil => intro s; exact le_refl _
    | cons nd rest ih =>
      intro s
      rw [List.foldl_cons]
      exact le_trans (hsingle s nd) (ih _)
  exact ⟨fun nd => hsingle st nd, hfold calls st⟩

/-! ### Dict idempotence lemmas (for C6) -/

theorem lastVal_cons (p : String × String) (nd : List (String × String))
    (k w : String) :
    lastVal (p :: nd) k w = lastVal nd k (if p.1 == k then p.2 else w) := by
  simp [lastVal]

theorem lastVal_not_mem (nd : List (String × String)) (k : String) :
    ∀ w, k ∉ nd.map Prod.fst → lastVal nd k w = w := by
  induction nd with
  | nil => intro w _; rfl
  | cons p rest ih =>
    intro w h
    have h1 : p.1 ≠ k := by
      intro he
      exact h (by simp [he])
    rw [lastVal_cons, if_neg (by simp [h1])]
    exact ih w (fun hm => h (by simp [hm]))

/-- Updating a dict whose keys cover the update list rewrites values in
place: each entry receives the last value its key gets in the update list. -/
theorem dictUpdate_eq_map_lastVal (nd : List (String × String)) :
    ∀ d, (∀ p ∈ nd, p.1 ∈ pyKeys d) →
      dictUpdate d nd = d.map (fun q => (q.1, lastVal nd q.1 q.2)) := by
  induction nd with
  | nil =>
    intro d _
    simp [dictUpdate, lastVal]
  | cons p rest ih =>
    intro d h
    have h0 : p.1 ∈ pyKeys d := h p (by simp)
    have hins : dictInsert d p.1 p.2 =
        d.map (fun q => if q.1 == p.1 then (q.1, p.2) else q) := by
      unfold dictInsert
      rw [if_pos (any_key_true_iff _ _ |>.mpr h0)]
    have hkeys : pyKeys (dictInsert d p.1 p.2) = pyKeys d :=
      pyKeys_dictInsert_mem _ _ _ h0
    have hstep : dictUpdate d (p :: rest) = dictUpdate (dictInsert d p.1 p.2) rest := by
      simp [dictUpdate]
    rw [hstep, ih _ (fun q hq => by rw [hkeys]; exact h q (by simp [hq])), hins,
      List.map_map]
    apply List.map_congr_left
    intro q _
    by_cases hq : q.1 = p.1
    · simp [Function.comp, hq, lastVal_cons]
    · simp [Function.comp, hq, lastVal_cons, Ne.symm hq]

theorem mem_pyKeys_dictInsert_self (d : List (String × String)) (k v : String) :
    k ∈ pyKeys (dictInsert d k v) := by
  by_cases h : k ∈ pyKeys d
  · rw [pyKeys_dictInsert_mem d k v h]; exact h
  · rw [pyKeys_dictInsert_not_mem d k v h]; simp

theorem mem_pyKeys_dictInsert_of_mem (d : List (String × String)) (k v a : String)
    (h : a ∈ pyKeys d) : a ∈ pyKeys (dictInsert d k v) := by
  by_cases hk : k ∈ pyKeys d
  · rw [pyKeys_dictInsert_mem d k v hk]; exact h
  · rw [pyKeys_dictInsert_not_mem d k v hk]; exact List.mem_append_left _ h

theorem mem_pyKeys_dictUpdate_of_mem (nd : List (String × String)) :
    ∀ d a, a ∈ pyKeys d → a ∈ pyKeys (dictUpdate d nd) := by
  induction nd with
  | nil => intro d a h; exact h
  | cons p rest ih =>
    intro d a h
    have hstep : dictUpdate d (p :: rest) = dictUpdate (dictInsert d p.1 p.2) rest := by
      simp [dictUpdate]
    rw [hstep]
    exact ih _ a (mem_pyKeys_dictInsert_of_mem d p.1 p.2 a h)

/-- Every key of the update list ends up among the updated dict's keys. -/
theorem update_keys_in_dictUpdate (nd : List (String × String)) :
    ∀ d p, p ∈ nd → p.1 ∈ pyKeys (dictUpdate d nd) := by
  induction nd with
  | nil => intro d p h; cases h
  | cons q rest ih =>
    intro d p h
    have hstep : dictUpdate d (q :: rest) = dictUpdate (dictInsert d q.1 q.2) rest := by
      simp [dictUpdate]
    rw [hstep]
    rcases List.mem_cons.mp h with rfl | h
    · exact mem_pyKeys_dictUpdate_of_mem rest _ p.1
        (mem_pyKeys_dictInsert_self d p.1 p.2)
    · exact ih _ p h

/-- A pair whose key differs from the inserted key was already present. -/
theorem mem_of_mem_dictInsert_ne (d : List (String × String)) (k v : String)
    (q : String × String) (h : q ∈ dictInsert d k v) (hne : q.1 ≠ k) : q ∈ d := by
  unfold dictInsert at h
  by_cases ha : d.any (fun p => p.1 == k)
  · rw [if_pos ha] at h
    obtain ⟨p, hp, he⟩ := List.mem_map.mp h
    by_cases hpk : p.1 == k
    · rw [if_pos hpk] at he
      exfalso
      apply hne
      rw [← he]
      exact beq_iff_eq.mp hpk
    · rw [if_neg hpk] at he
      exact he ▸ hp
  · rw [if_neg ha] at h
    rcases List.mem_append.mp h with h | h
    · exact h
    · exfalso
      apply hne
      rw [List.mem_singleton] at h
      rw [h]

/-- A pair carrying the inserted key carries the inserted value. -/
theorem value_of_mem_dictInsert (d : List (String × String)) (k v : String)
    (q : String × String) (h : q ∈ dictInsert d k v) (hk : q.1 = k) : q.2 = v := by
  unfold dictInsert at h
  by_cases ha : d.any (fun p => p.1 == k)
  · rw [if_pos ha] at h
    obtain ⟨p, hp, he⟩ := List.mem_map.mp h
    by_cases hpk : p.1 == k
    · rw [if_pos hpk] at he
      rw [← he]
    · rw [if_neg hpk] at he
      exfalso
      apply hpk
      rw [beq_iff_eq]
      rw [← hk, he]
  · rw [if_neg ha] at h
    rcases List.mem_append.mp h with h | h
    · exfalso
      have : d.any (fun p => p.1 == k) = true := by
        rw [List.any_eq_true]
        exact ⟨q, h, by simp [hk]⟩
      exact ha this
    · rw [List.mem_singleton] at h
      rw [h]

/-- A pair whose key is untouched by the update list was already present. -/
theorem mem_of_mem_dictUpdate_fresh (nd : List (String × String)) :
    ∀ d q, q ∈ dictUpdate d nd → q.1 ∉ nd.map Prod.fst → q ∈ d := by
  induction nd with
  | nil => intro d q h _; exact h
  | cons p rest ih =>
    intro d q h hq
    have hstep : dictUpdate d (p :: rest) = dictUpdate (dictInsert d p.1 p.2) rest := by
      simp [dictUpdate]
    rw [hstep] at h
    have hq1 : q.1 ∉ rest.map Prod.fst := fun hm => hq (by simp [hm])
    have hq2 : q.1 ≠ p.1 := fun he => hq (by simp [he])
    exact mem_of_mem_dictInsert_ne d p.1 p.2 q (ih _ q h hq1) hq2

/-- After an update, every entry whose key occurs in the update list carries
the last value that key receives there (whatever the default). -/
theorem value_lastVal_of_mem_dictUpdate (nd : List (String × String)) :
    ∀ d q, q ∈ dictUpdate d nd → q.1 ∈ nd.map Prod.fst →
      ∀ w, q.2 = lastVal nd q.1 w := by
  induction nd with
  | nil => intro d q _ hm; cases hm
  | cons p rest ih =>
    intro d q hq hmem w
    have hstep : dictUpdate d (p :: rest) = dictUpdate (dictInsert d p.1 p.2) rest := by
      simp [dictUpdate]
    rw [hstep] at hq
    rw [lastVal_cons]
    by_cases hr : q.1 ∈ rest.map Prod.fst
    · exact ih _ q hq hr _
    · have hqp : q.1 = p.1 := by
        rcases (by simpa using hmem : q.1 = p.1 ∨ q.1 ∈ rest.map Prod.fst) with h | h
        · exact h
        · exact absurd h hr
      have hq' : q ∈ dictInsert d p.1 p.2 :=
        mem_of_mem_dictUpdate_fresh rest _ q hq hr
      have hv : q.2 = p.2 := value_of_mem_dictInsert d p.1 p.2 q hq' hqp
      rw [hv, if_pos (by simp [hqp]), lastVal_not_mem rest q.1 p.2 hr]

/-- Repeating the same `dict.update` is a no-op. -/
theorem dictUpdate_idem (d nd : List (String × String)) :
    dictUpdate (dictUpdate d nd) nd = dictUpdate d nd := by
  rw [dictUpdate_eq_map_lastVal nd (dictUpdate d nd)
    (fun p hp => update_keys_in_dictUpdate nd d p hp)]
  have : ∀ q ∈ dictUpdate d nd, (q.1, lastVal nd q.1 q.2) = id q := by
    intro q hq
    by_cases hm : q.1 ∈ nd.map Prod.fst
    · rw [← value_lastVal_of_mem_dictUpdate nd d q hq hm q.2]
      rfl
    · rw [lastVal_not_mem nd q.1 q.2 hm]
      rfl
  rw [List.map_congr_left this, List.map_id]

/-- **C6** Rendering is idempotent: calling `update_table` twice in a row
with the same data yields the identical state (same column widths, same
accumulated data) and the identical table rows. -/
theorem c6_update_table_idempotent (st : GPUTableState)
    (nd : List (String × String)) :
    update_table (update_table st nd).1 nd = update_table st nd := by
  unfold update_table
  simp only [dictUpdate_idem st.data nd]
  rw [widthPassData_absorb (dictUpdate st.data nd) st.max_widths
    (widthPassData st.max_widths (dictUpdate st.data nd)) (fun col => le_refl _)]

/-! ### Character toolkit for the renderer-inversion claim (C10) -/

theorem sdata_append (a b : String) : (a ++ b).data = a.data ++ b.data := rfl

/-- All characters of the decimal digit map are digits. -/
theorem digitChar_isDigit (k : Nat) (h : k < 10) : (Nat.digitChar k).isDigit = true := by
  interval_cases k <;> decide

/-- `Nat.toDigitsCore` at base 10 only ever emits digit characters. -/
theorem toDigitsCore_digits (f : Nat) :
    ∀ (n : Nat) (ds : List Char), (∀ c ∈ ds, c.isDigit = true) →
      ∀ c ∈ Nat.toDigitsCore 10 f n ds, c.isDigit = true := by
  induction f with
  | zero => intro n ds h c hc; exact h c hc
  | succ f ih =>
    intro n ds h c hc
    rw [Nat.toDigitsCore] at hc
    have hd : ∀ c' ∈ Nat.digitChar (n % 10) :: ds, c'.isDigit = true := by
      intro c' hc'
      rcases List.mem_cons.mp hc' with rfl | hc'
      · exact digitChar_isDigit _ (Nat.mod_lt _ (by decide))
      · exact h c' hc'
    by_cases hz : n / 10 = 0
    · rw [if_pos hz] at hc
      exact hd c hc
    · rw [if_neg hz] at hc
      exact ih (n / 10) _ hd c hc

/-- Every character of `toString n` (for a `Nat`) is a digit. -/
theorem repr_chars_digit (n : Nat) : ∀ c ∈ (toString n).data, c.isDigit = true := by
  intro c hc
  exact toDigitsCore_digits (n + 1) n [] (by intro c' hc'; cases hc') c hc

/-- `toDigitsCore` never shrinks its accumulator. -/
theorem toDigitsCore_length_le (f : Nat) :
    ∀ (n : Nat) (ds : List Char), ds.length ≤ (Nat.toDigitsCore 10 f n ds).length := by
  induction f with
  | zero => intro n ds; exact le_refl _
  | succ f ih =>
    intro n ds
    rw [Nat.toDigitsCore]
    by_cases hz : n / 10 = 0
    · rw [if_pos hz]
      simp
    · rw [if_neg hz]
      exact le_trans (by simp) (ih (n / 10) (Nat.digitChar (n % 10) :: ds))

/-- The decimal rendering of a `Nat` is non-empty. -/
theorem repr_ne_nil (n : Nat) : (toString n).data ≠ [] := by
  have h : 1 ≤ (toString n).data.length := by
    show 1 ≤ (Nat.toDigitsCore 10 (n + 1) n []).length
    rw [Nat.toDigitsCore]
    by_cases hz : n / 10 = 0
    · rw [if_pos hz]
      simp
    · rw [if_neg hz]
      exact le_trans (by simp) (toDigitsCore_length_le n (n / 10) _)
  intro he
  rw [he] at h
  exact absurd h (by decide)

/-- A digit character is none of the table's separator characters and no
whitespace. -/
theorem isDigit_clean (c : Char) (h : c.isDigit = true) :
    c ≠ '|' ∧ c ≠ '\n' ∧ c ≠ ':' ∧ pySpace c = false := by
  refine ⟨?_, ?_, ?_, ?_⟩
  · rintro rfl; exact absurd h (by decide)
  · rintro rfl; exact absurd h (by decide)
  · rintro rfl; exact absurd h (by decide)
  · by_contra hb
    have hs : pySpace c = true := by
      cases hpc : pySpace c
      · exact absurd hpc hb
      · rfl
    have : ((c = ' ' ∨ c = '\t') ∨ c = '\n') ∨ c = '\r' := by
      simpa [pySpace] using hs
    rcases this with ((rfl | rfl) | rfl) | rfl <;> exact absurd h (by decide)

/-- `splitCharL` never returns the empty list. -/
theorem splitCharL_ne_nil (c : Char) (l : List Char) : splitCharL c l ≠ [] := by
  induction l with
  | nil => simp [splitCharL]
  | cons a as ih =>
    rw [splitCharL]
    cases h : splitCharL c as with
    | nil => exact absurd h ih
    | cons p ps => by_cases hac : a = c <;> simp [hac]

/-- Splitting a list free of the separator returns the singleton piece. -/
theorem splitCharL_not_mem (c : Char) : ∀ l, c ∉ l → splitCharL c l = [l] := by
  intro l
  induction l with
  | nil => intro _; rfl
  | cons a as ih =>
    intro h
    have ha : a ≠ c := fun he => h (by simp [he])
    have has : c ∉ as := fun hm => h (by simp [hm])
    rw [splitCharL, ih has]
    simp [ha]

/-- Splitting at the first separator occurrence peels off the prefix. -/
theorem splitCharL_append (c : Char) : ∀ l1 l2, c ∉ l1 →
    splitCharL c (l1 ++ c :: l2) = l1 :: splitCharL c l2 := by
  intro l1
  induction l1 with
  | nil =>
    intro l2 _
    rw [List.nil_append, splitCharL]
    cases h : splitCharL c l2 with
    | nil => exact absurd h (splitCharL_ne_nil c l2)
    | cons p ps => simp
  | cons a as ih =>
    intro l2 h
    have ha : a ≠ c := fun he => h (by simp [he])
    rw [List.cons_append, splitCharL, ih l2 (fun hm => h (by simp [hm]))]
    simp [ha]

theorem trimLeftL_spaces_append (k : Nat) (l : List Char) :
    trimLeftL (spacesL k ++ l) = trimLeftL l := by
  induction k with
  | zero => rfl
  | succ n ih =>
    rw [spacesL, List.replicate_succ, List.cons_append]
    show List.dropWhile pySpace (' ' :: (List.replicate n ' ' ++ l)) = trimLeftL l
    rw [List.dropWhile_cons]
    simp only [show pySpace ' ' = true from rfl, if_true]
    exact ih

theorem trimLeftL_cons_neg (a : Char) (l : List Char) (h : pySpace a = false) :
    trimLeftL (a :: l) = a :: l := by
  show List.dropWhile pySpace (a :: l) = a :: l
  rw [List.dropWhile_cons]
  simp [h]

theorem trimRightL_append_spaces (l : List Char) (k : Nat) :
    trimRightL (l ++ spacesL k) = trimRightL l := by
  unfold trimRightL
  rw [List.reverse_append, show (spacesL k).reverse = spacesL k from by
    simp [spacesL], trimLeftL_spaces_append]

theorem trimRightL_concat_neg (l : List Char) (b : Char) (h : pySpace b = false) :
    trimRightL (l ++ [b]) = l ++ [b] := by
  unfold trimRightL
  rw [List.reverse_append]
  show ((trimLeftL (b :: l.reverse)).reverse = l ++ [b])
  rw [trimLeftL_cons_neg _ _ h]
  simp

theorem pyStripL_cons_space (a : Char) (l : List Char) (h : pySpace a = true) :
    pyStripL (a :: l) = pyStripL l := by
  unfold pyStripL
  have : trimLeftL (a :: l) = trimLeftL l := by
    show List.dropWhile pySpace (a :: l) = List.dropWhile pySpace l
    rw [List.dropWhile_cons]
    simp [h]
  rw [this]

theorem pyStripL_append_spaces (l : List Char) (k : Nat) :
    pyStripL (l ++ spacesL k) = pyStripL l := by
  induction l with
  | nil =>
    show pyStripL (spacesL k) = pyStripL []
    unfold pyStripL
    have h1 : trimLeftL (spacesL k) = [] := by
      have := trimLeftL_spaces_append k []
      simpa using this
    rw [h1]
    rfl
  | cons a l ih =>
    cases h : pySpace a with
    | true =>
      rw [List.cons_append, pyStripL_cons_space _ _ h, pyStripL_cons_space _ _ h]
      exact ih
    | false =>
      unfold pyStripL
      rw [List.cons_append, trimLeftL_cons_neg _ _ h, trimLeftL_cons_neg _ _ h]
      rw [show a :: (l ++ spacesL k) = (a :: l) ++ spacesL k from rfl,
        trimRightL_append_spaces]

/-- A list with non-space first and last characters is fixed by `strip`. -/
theorem pyStripL_of_ends (a b : Char) (mid : List Char)
    (ha : pySpace a = false) (hb : pySpace b = false) :
    pyStripL (a :: (mid ++ [b])) = a :: (mid ++ [b]) := by
  unfold pyStripL
  rw [trimLeftL_cons_neg _ _ ha,
    show a :: (mid ++ [b]) = (a :: mid) ++ [b] from rfl,
    trimRightL_concat_neg _ _ hb]

/-- A singleton non-space character is fixed by `strip`. -/
theorem pyStripL_singleton (a : Char) (ha : pySpace a = false) :
    pyStripL [a] = [a] := by
  unfold pyStripL
  rw [trimLeftL_cons_neg _ _ ha,
    show [a] = ([] : List Char) ++ [a] from rfl,
    trimRightL_concat_neg _ _ ha]

theorem pyStripL_spaces_append (k : Nat) (l : List Char) :
    pyStripL (spacesL k ++ l) = pyStripL l := by
  induction k with
  | zero => rfl
  | succ n ih =>
    rw [spacesL, List.replicate_succ, List.cons_append,
      pyStripL_cons_space _ _ (show pySpace ' ' = true from rfl)]
    exact ih

/-- A non-empty all-non-space list is fixed by `strip`. -/
theorem pyStripL_all_nonspace (l : List Char) (hne : l ≠ [])
    (h : ∀ c ∈ l, pySpace c = false) : pyStripL l = l := by
  cases l with
  | nil => exact absurd rfl hne
  | cons a rest =>
    rcases List.eq_nil_or_concat rest with rfl | ⟨mid, b, hb⟩
    · exact pyStripL_singleton a (h a (by simp))
    · subst hb
      rw [List.concat_eq_append]
      exact pyStripL_of_ends a b mid (h a (by simp)) (h b (by simp))

/-- Unpack `goodValueB`. -/
theorem goodValueB_elim (s : String) (h : goodValueB s = true) :
    (∃ c rest, s.data = c :: rest ∧ pySpace c = false) ∧
      '|' ∉ s.data ∧ '\n' ∉ s.data ∧ ':' ∉ s.data := by
  unfold goodValueB at h
  cases hd : s.data with
  | nil => rw [hd] at h; cases h
  | cons c rest =>
    rw [hd] at h
    rw [Bool.and_eq_true] at h
    obtain ⟨h1, h2⟩ := h
    rw [List.all_eq_true] at h2
    have hclean : ∀ x ∈ c :: rest, x ≠ '|' ∧ x ≠ '\n' ∧ x ≠ ':' := by
      intro x hx
      have h3 : (x ≠ '|' ∧ x ≠ '\n') ∧ x ≠ ':' := by simpa using h2 x hx
      exact ⟨h3.1.1, h3.1.2, h3.2⟩
    exact ⟨⟨c, rest, rfl, by simpa using h1⟩,
      fun hm => (hclean '|' hm).1 rfl,
      fun hm => (hclean '\n' hm).2.1 rfl,
      fun hm => (hclean ':' hm).2.2 rfl⟩

/-- Unpack `goodModelB`. -/
theorem goodModelB_elim (s : String) (h : goodModelB s = true) :
    pyStripL s.data = s.data ∧ '|' ∉ s.data ∧ '\n' ∉ s.data := by
  unfold goodModelB at h
  rw [Bool.and_eq_true] at h
  obtain ⟨h1, h2⟩ := h
  rw [List.all_eq_true] at h2
  have hclean : ∀ x ∈ s.data, x ≠ '|' ∧ x ≠ '\n' := by
    intro x hx
    simpa using h2 x hx
  refine ⟨?_, fun hm => (hclean '|' hm).1 rfl, fun hm => (hclean '\n' hm).2 rfl⟩
  have : pyStrip s = s := by simpa using h1
  exact congrArg String.data this

/-- Unpack `goodTotalB`. -/
theorem goodTotalB_elim (s : String) (h : goodTotalB s = true) :
    '|' ∉ s.data ∧ '\n' ∉ s.data ∧ ':' ∉ s.data := by
  unfold goodTotalB at h
  rw [List.all_eq_true] at h
  have hclean : ∀ x ∈ s.data, x ≠ '|' ∧ x ≠ '\n' ∧ x ≠ ':' := by
    intro x hx
    have h3 : (x ≠ '|' ∧ x ≠ '\n') ∧ x ≠ ':' := by simpa using h x hx
    exact ⟨h3.1.1, h3.1.2, h3.2⟩
  exact ⟨fun hm => (hclean '|' hm).1 rfl, fun hm => (hclean '\n' hm).2.1 rfl,
    fun hm => (hclean ':' hm).2.2 rfl⟩

/-- The decimal rendering of a `Nat` contains no separator characters and no
whitespace. -/
theorem repr_clean (n : Nat) :
    '|' ∉ (toString n).data ∧ '\n' ∉ (toString n).data ∧ ':' ∉ (toString n).data ∧
      ∀ c ∈ (toString n).data, pySpace c = false := by
  refine ⟨?_, ?_, ?_, ?_⟩
  · intro hm
    exact (isDigit_clean _ (repr_chars_digit n _ hm)).1 rfl
  · intro hm
    exact (isDigit_clean _ (repr_chars_digit n _ hm)).2.1 rfl
  · intro hm
    exact (isDigit_clean _ (repr_chars_digit n _ hm)).2.2.1 rfl
  · intro c hc
    exact (isDigit_clean _ (repr_chars_digit n _ hc)).2.2.2

/-- Characters of a space run are spaces. -/
theorem mem_spacesL (c : Char) (k : Nat) (h : c ∈ spacesL k) : c = ' ' := by
  rw [spacesL] at h
  exact (List.eq_of_mem_replicate h)

theorem not_mem_spacesL (c : Char) (k : Nat) (h : c ≠ ' ') : c ∉ spacesL k :=
  fun hm => h (mem_spacesL c k hm)

theorem pyBool_data (b : Bool) :
    (pyBool b).data = (if b then "True" else "False" : String).data := by
  cases b <;> rfl

theorem not_mem_pyBool (c : Char) (b : Bool) (h1 : c ∉ ("True" : String).data)
    (h2 : c ∉ ("False" : String).data) : c ∉ (pyBool b).data := by
  cases b
  · exact h2
  · exact h1

theorem not_mem_app (c : Char) {x y : List Char} (hx : c ∉ x) (hy : c ∉ y) :
    c ∉ x ++ y := by
  intro hm
  rcases List.mem_append.mp hm with h | h
  · exact hx h
  · exact hy h

theorem c10GoodB_elim (g : GPUInfo) (h : c10GoodB g = true) :
    g.model.isSome = true ∧ goodModelB (g.model.getD "") = true ∧
    goodValueB g.gpu_util = true ∧ goodValueB g.used_mem = true ∧
    goodTotalB g.total_mem = true := by
  unfold c10GoodB at h
  simp only [Bool.and_eq_true] at h
  exact ⟨h.1.1.1.1, h.1.1.1.2, h.1.1.2, h.1.2, h.2⟩

/-- The rendered line decomposes into its five segments around the four
`'|'` separators. -/
theorem renderLine_data (g : GPUInfo) :
    (renderLineStr g).data =
      c10Seg0 g ++ '|' :: (c10Seg1 g ++ '|' :: (c10Seg2 g ++ '|' ::
        (c10Seg3 g ++ '|' :: c10Seg4 g))) := by
  have e1 : (" | Free: " : String).data = [' '] ++ '|' :: (" Free: " : String).data := rfl
  have e2 : (" | Num Procs: " : String).data =
      [' '] ++ '|' :: (" Num Procs: " : String).data := rfl
  have e3 : (" | GPU Util: " : String).data =
      [' '] ++ '|' :: (" GPU Util: " : String).data := rfl
  have e4 : (" % | Memory: " : String).data =
      (" % " : String).data ++ '|' :: (" Memory: " : String).data := rfl
  simp only [renderLineStr, sdata_append, padRight, padLeft,
    c10Seg0, c10Seg1, c10Seg2, c10Seg3, c10Seg4, e1, e2, e3, e4]
  simp [List.append_assoc]

/-- Stripping segment 0 recovers the model (which carries no surrounding
whitespace). -/
theorem strip_seg0 (g : GPUInfo)
    (h : pyStripL (g.model.getD "").data = (g.model.getD "").data) :
    pyStripL (c10Seg0 g) = (g.model.getD "").data := by
  unfold c10Seg0
  rw [show ([' '] : List Char) = spacesL 1 from rfl, pyStripL_append_spaces,
    pyStripL_append_spaces, h]

/-- Stripping segment 1 yields the free-flag cell. -/
theorem strip_seg1 (g : GPUInfo) :
    pyStripL (c10Seg1 g) = ("Free: " ++ pyBool (g.num_procs == 0)).data := by
  unfold c10Seg1
  cases g.num_procs == 0 <;> rfl

/-- Stripping segment 2 yields the process-count cell text. -/
theorem strip_seg2 (g : GPUInfo) :
    pyStripL (c10Seg2 g) =
      ("Num Procs: " ++ padLeft (toString g.num_procs) 2).data := by
  unfold c10Seg2
  obtain ⟨ds, b, hnp⟩ : ∃ ds b, (toString g.num_procs).data = ds ++ [b] := by
    rcases List.eq_nil_or_concat (toString g.num_procs).data with he | ⟨ds, b, hb⟩
    · exact absurd he (repr_ne_nil _)
    · exact ⟨ds, b, by rw [hb, List.concat_eq_append]⟩
  have hb : pySpace b = false := by
    have hm : b ∈ (toString g.num_procs).data := by rw [hnp]; simp
    exact (repr_clean g.num_procs).2.2.2 b hm
  rw [show ([' '] : List Char) = spacesL 1 from rfl, pyStripL_append_spaces]
  have hres : (" Num Procs: " : String).data ++
      spacesL (2 - (toString g.num_procs).data.length) ++ (toString g.num_procs).data =
      ' ' :: (("Num Procs: " : String).data ++
        spacesL (2 - (toString g.num_procs).data.length) ++ (toString g.num_procs).data) := by
    simp [show (" Num Procs: " : String).data =
      ' ' :: ("Num Procs: " : String).data from rfl, List.append_assoc]
  rw [hres, pyStripL_cons_space _ _ (show pySpace ' ' = true from rfl)]
  have hshape : ("Num Procs: " : String).data ++
      spacesL (2 - (toString g.num_procs).data.length) ++ (toString g.num_procs).data =
      'N' :: ((("um Procs: " : String).data ++
        spacesL (2 - (toString g.num_procs).data.length) ++ ds) ++ [b]) := by
    rw [hnp]
    simp [show ("Num Procs: " : String).data =
      'N' :: ("um Procs: " : String).data from rfl, List.append_assoc]
  rw [hshape, pyStripL_of_ends 'N' b _ rfl hb, ← hshape]
  simp [sdata_append, padLeft, List.append_assoc]

/-- Stripping segment 3 yields the utilization cell text. -/
theorem strip_seg3 (g : GPUInfo) :
    pyStripL (c10Seg3 g) =
      ("GPU Util: " ++ padLeft g.gpu_util 3 ++ " %").data := by
  unfold c10Seg3
  have hsplit : (" GPU Util: " : String).data ++
      spacesL (3 - g.gpu_util.data.length) ++ g.gpu_util.data ++ (" % " : String).data =
      ((" GPU Util: " : String).data ++ spacesL (3 - g.gpu_util.data.length) ++
        g.gpu_util.data ++ [' ', '%']) ++ spacesL 1 := by
    simp [show (" % " : String).data = [' ', '%'] ++ spacesL 1 from rfl,
      show spacesL 1 = [' '] from rfl, List.append_assoc]
  rw [hsplit, pyStripL_append_spaces]
  have hres : (" GPU Util: " : String).data ++ spacesL (3 - g.gpu_util.data.length) ++
      g.gpu_util.data ++ [' ', '%'] =
      ' ' :: (("GPU Util: " : String).data ++ spacesL (3 - g.gpu_util.data.length) ++
        g.gpu_util.data ++ [' ', '%']) := by
    simp [show (" GPU Util: " : String).data =
      ' ' :: ("GPU Util: " : String).data from rfl, List.append_assoc]
  rw [hres, pyStripL_cons_space _ _ (show pySpace ' ' = true from rfl)]
  have hshape : ("GPU Util: " : String).data ++ spacesL (3 - g.gpu_util.data.length) ++
      g.gpu_util.data ++ [' ', '%'] =
      'G' :: ((("PU Util: " : String).data ++ spacesL (3 - g.gpu_util.data.length) ++
        g.gpu_util.data ++ [' ']) ++ ['%']) := by
    simp [show ("GPU Util: " : String).data =
      'G' :: ("PU Util: " : String).data from rfl, List.append_assoc]
  rw [hshape, pyStripL_of_ends 'G' '%' _ rfl rfl, ← hshape]
  simp [sdata_append, padLeft, List.append_assoc]

/-- Stripping segment 4 yields the memory cell text. -/
theorem strip_seg4 (g : GPUInfo) :
    pyStripL (c10Seg4 g) =
      ("Memory: " ++ padLeft g.used_mem 5 ++ " / " ++
        padLeft g.total_mem 5 ++ " MiB").data := by
  unfold c10Seg4
  have hres : (" Memory: " : String).data ++ spacesL (5 - g.used_mem.data.length) ++
      g.used_mem.data ++ (" / " : String).data ++
      spacesL (5 - g.total_mem.data.length) ++ g.total_mem.data ++
      (" MiB" : String).data =
      ' ' :: (("Memory: " : String).data ++ spacesL (5 - g.used_mem.data.length) ++
        g.used_mem.data ++ (" / " : String).data ++
        spacesL (5 - g.total_mem.data.length) ++ g.total_mem.data ++
        (" MiB" : String).data) := by
    simp [show (" Memory: " : String).data =
      ' ' :: ("Memory: " : String).data from rfl, List.append_assoc]
  rw [hres, pyStripL_cons_space _ _ (show pySpace ' ' = true from rfl)]
  have hshape : ("Memory: " : String).data ++ spacesL (5 - g.used_mem.data.length) ++
      g.used_mem.data ++ (" / " : String).data ++
      spacesL (5 - g.total_mem.data.length) ++ g.total_mem.data ++
      (" MiB" : String).data =
      'M' :: ((("emory: " : String).data ++ spacesL (5 - g.used_mem.data.length) ++
        g.used_mem.data ++ (" / " : String).data ++
        spacesL (5 - g.total_mem.data.length) ++ g.total_mem.data ++
        [' ', 'M', 'i']) ++ ['B']) := by
    simp [show ("Memory: " : String).data = 'M' :: ("emory: " : String).data from rfl,
      show (" MiB" : String).data = [' ', 'M', 'i'] ++ ['B'] from rfl, List.append_assoc]
  rw [hshape, pyStripL_of_ends 'M' 'B' _ rfl rfl, ← hshape]
  simp [sdata_append, padLeft, List.append_assoc]

theorem pipe_seg0 (g : GPUInfo) (hmp : '|' ∉ (g.model.getD "").data) :
    '|' ∉ c10Seg0 g := by
  unfold c10Seg0
  exact not_mem_app _ (not_mem_app _ hmp (not_mem_spacesL _ _ (by decide))) (by decide)

theorem pipe_seg1 (g : GPUInfo) : '|' ∉ c10Seg1 g := by
  unfold c10Seg1
  exact not_mem_app _ (not_mem_app _ (not_mem_app _ (by decide)
    (not_mem_pyBool _ _ (by decide) (by decide)))
    (not_mem_spacesL _ _ (by decide))) (by decide)

theorem pipe_seg2 (g : GPUInfo) : '|' ∉ c10Seg2 g := by
  unfold c10Seg2
  exact not_mem_app _ (not_mem_app _ (not_mem_app _ (by decide)
    (not_mem_spacesL _ _ (by decide))) (repr_clean g.num_procs).1) (by decide)

theorem pipe_seg3 (g : GPUInfo) (hup : '|' ∉ g.gpu_util.data) : '|' ∉ c10Seg3 g := by
  unfold c10Seg3
  exact not_mem_app _ (not_mem_app _ (not_mem_app _ (by decide)
    (not_mem_spacesL _ _ (by decide))) hup) (by decide)

theorem pipe_seg4 (g : GPUInfo) (hsp : '|' ∉ g.used_mem.data)
    (htp : '|' ∉ g.total_mem.data) : '|' ∉ c10Seg4 g := by
  unfold c10Seg4
  exact not_mem_app _ (not_mem_app _ (not_mem_app _ (not_mem_app _ (not_mem_app _
    (not_mem_app _ (by decide) (not_mem_spacesL _ _ (by decide))) hsp) (by decide))
    (not_mem_spacesL _ _ (by decide))) htp) (by decide)

/-- The renderer's line splits and strips back into the five cell texts. -/
theorem entryParts_render (g : GPUInfo) (h : c10GoodB g = true) :
    entryParts (renderLineStr g) =
      [g.model.getD "", "Free: " ++ pyBool (g.num_procs == 0),
       "Num Procs: " ++ padLeft (toString g.num_procs) 2,
       "GPU Util: " ++ padLeft g.gpu_util 3 ++ " %",
       "Memory: " ++ padLeft g.used_mem 5 ++ " / " ++
         padLeft g.total_mem 5 ++ " MiB"] := by
  obtain ⟨hsome, hm, hu, hus, ht⟩ := c10GoodB_elim g h
  obtain ⟨hmstrip, hmp, hmn⟩ := goodModelB_elim _ hm
  obtain ⟨_, hup, hun, hucol⟩ := goodValueB_elim _ hu
  obtain ⟨_, hsp, hsn, hscol⟩ := goodValueB_elim _ hus
  obtain ⟨htp, htn, htcol⟩ := goodTotalB_elim _ ht
  unfold entryParts pySplit
  rw [renderLine_data g,
    splitCharL_append '|' _ _ (pipe_seg0 g hmp),
    splitCharL_append '|' _ _ (pipe_seg1 g),
    splitCharL_append '|' _ _ (pipe_seg2 g),
    splitCharL_append '|' _ _ (pipe_seg3 g hup),
    splitCharL_not_mem '|' _ (pipe_seg4 g hsp htp)]
  simp only [List.map]
  have e0 : pyStrip ⟨c10Seg0 g⟩ = g.model.getD "" := by
    unfold pyStrip
    rw [show (String.mk (c10Seg0 g)).data = c10Seg0 g from rfl, strip_seg0 g hmstrip]
  have e1 : pyStrip ⟨c10Seg1 g⟩ = "Free: " ++ pyBool (g.num_procs == 0) := by
    unfold pyStrip
    rw [show (String.mk (c10Seg1 g)).data = c10Seg1 g from rfl, strip_seg1 g]
  have e2 : pyStrip ⟨c10Seg2 g⟩ = "Num Procs: " ++ padLeft (toString g.num_procs) 2 := by
    unfold pyStrip
    rw [show (String.mk (c10Seg2 g)).data = c10Seg2 g from rfl, strip_seg2 g]
  have e3 : pyStrip ⟨c10Seg3 g⟩ = "GPU Util: " ++ padLeft g.gpu_util 3 ++ " %" := by
    unfold pyStrip
    rw [show (String.mk (c10Seg3 g)).data = c10Seg3 g from rfl, strip_seg3 g]
  have e4 : pyStrip ⟨c10Seg4 g⟩ = "Memory: " ++ padLeft g.used_mem 5 ++ " / " ++
      padLeft g.total_mem 5 ++ " MiB" := by
    unfold pyStrip
    rw [show (String.mk (c10Seg4 g)).data = c10Seg4 g from rfl, strip_seg4 g]
  rw [e0, e1, e2, e3, e4]

theorem colonSecond_free (b : Bool) :
    colonSecond ("Free: " ++ pyBool b) = some (pyBool b) := by
  cases b <;> rfl

theorem colonSecond_procs (n : Nat) :
    colonSecond ("Num Procs: " ++ padLeft (toString n) 2) = some (toString n) := by
  unfold colonSecond pySplit
  have hshape : ("Num Procs: " ++ padLeft (toString n) 2).data =
      ("Num Procs" : String).data ++ ':' ::
        (spacesL 1 ++ (spacesL (2 - (toString n).data.length) ++ (toString n).data)) := by
    simp [sdata_append, padLeft,
      show ("Num Procs: " : String).data =
        ("Num Procs" : String).data ++ ':' :: spacesL 1 from rfl,
      show spacesL 1 = [' '] from rfl, List.append_assoc]
  rw [hshape, splitCharL_append ':' _ _ (by decide),
    splitCharL_not_mem ':' _ (not_mem_app _ (not_mem_spacesL _ _ (by decide))
      (not_mem_app _ (not_mem_spacesL _ _ (by decide)) (repr_clean n).2.2.1))]
  show some (pyStrip ⟨spacesL 1 ++ (spacesL (2 - (toString n).data.length) ++
    (toString n).data)⟩) = some (toString n)
  unfold pyStrip
  rw [show (String.mk (spacesL 1 ++ (spacesL (2 - (toString n).data.length) ++
      (toString n).data))).data = spacesL 1 ++ (spacesL (2 - (toString n).data.length) ++
      (toString n).data) from rfl,
    pyStripL_spaces_append, pyStripL_spaces_append,
    pyStripL_all_nonspace _ (repr_ne_nil n) (repr_clean n).2.2.2]

theorem colonSecond_util (util : String) (uc : Char) (urest : List Char)
    (hud : util.data = uc :: urest) (huc : pySpace uc = false)
    (hucol : ':' ∉ util.data) :
    colonSecond ("GPU Util: " ++ padLeft util 3 ++ " %") = some (util ++ " %") := by
  unfold colonSecond pySplit
  have hshape : ("GPU Util: " ++ padLeft util 3 ++ " %").data =
      ("GPU Util" : String).data ++ ':' ::
        (spacesL 1 ++ (spacesL (3 - util.data.length) ++ (util.data ++ [' ', '%']))) := by
    simp [sdata_append, padLeft,
      show ("GPU Util: " : String).data =
        ("GPU Util" : String).data ++ ':' :: spacesL 1 from rfl,
      show (" %" : String).data = [' ', '%'] from rfl,
      show spacesL 1 = [' '] from rfl, List.append_assoc]
  rw [hshape, splitCharL_append ':' _ _ (by decide),
    splitCharL_not_mem ':' _ (not_mem_app _ (not_mem_spacesL _ _ (by decide))
      (not_mem_app _ (not_mem_spacesL _ _ (by decide))
        (not_mem_app _ hucol (by decide))))]
  show some (pyStrip ⟨spacesL 1 ++ (spacesL (3 - util.data.length) ++
    (util.data ++ [' ', '%']))⟩) = some (util ++ " %")
  unfold pyStrip
  rw [show (String.mk (spacesL 1 ++ (spacesL (3 - util.data.length) ++
      (util.data ++ [' ', '%'])))).data = spacesL 1 ++ (spacesL (3 - util.data.length) ++
      (util.data ++ [' ', '%'])) from rfl,
    pyStripL_spaces_append, pyStripL_spaces_append]
  have hshape2 : util.data ++ [' ', '%'] = uc :: ((urest ++ [' ']) ++ ['%']) := by
    rw [hud]
    simp [List.append_assoc]
  rw [hshape2, pyStripL_of_ends uc '%' _ huc rfl, ← hshape2]
  have hdd : (util ++ " %").data = util.data ++ [' ', '%'] := by
    simp [sdata_append, show (" %" : String).data = [' ', '%'] from rfl]
  have hfin : String.mk (util.data ++ [' ', '%']) = util ++ " %" := by
    rw [← hdd]
  exact congrArg some hfin

theorem colonSecond_memory (used total : String) (sc : Char) (srest : List Char)
    (hsd : used.data = sc :: srest) (hsc : pySpace sc = false)
    (hscol : ':' ∉ used.data) (htcol : ':' ∉ total.data) :
    colonSecond ("Memory: " ++ padLeft used 5 ++ " / " ++ padLeft total 5 ++ " MiB") =
      some (used ++ " / " ++ padLeft total 5 ++ " MiB") := by
  unfold colonSecond pySplit
  have hshape : ("Memory: " ++ padLeft used 5 ++ " / " ++
      padLeft total 5 ++ " MiB").data =
      ("Memory" : String).data ++ ':' ::
        (spacesL 1 ++ (spacesL (5 - used.data.length) ++ (used.data ++
          ((" / " : String).data ++ spacesL (5 - total.data.length) ++ total.data ++
            (" MiB" : String).data)))) := by
    simp [sdata_append, padLeft,
      show ("Memory: " : String).data =
        ("Memory" : String).data ++ ':' :: spacesL 1 from rfl,
      show spacesL 1 = [' '] from rfl, List.append_assoc]
  rw [hshape, splitCharL_append ':' _ _ (by decide),
    splitCharL_not_mem ':' _ (not_mem_app _ (not_mem_spacesL _ _ (by decide))
      (not_mem_app _ (not_mem_spacesL _ _ (by decide))
        (not_mem_app _ hscol
          (not_mem_app _ (not_mem_app _ (not_mem_app _ (by decide)
            (not_mem_spacesL _ _ (by decide))) htcol) (by decide)))))]
  show some (pyStrip ⟨spacesL 1 ++ (spacesL (5 - used.data.length) ++ (used.data ++
    ((" / " : String).data ++ spacesL (5 - total.data.length) ++ total.data ++
      (" MiB" : String).data)))⟩) =
    some (used ++ " / " ++ padLeft total 5 ++ " MiB")
  unfold pyStrip
  rw [show (String.mk (spacesL 1 ++ (spacesL (5 - used.data.length) ++ (used.data ++
      ((" / " : String).data ++ spacesL (5 - total.data.length) ++ total.data ++
        (" MiB" : String).data))))).data =
      spacesL 1 ++ (spacesL (5 - used.data.length) ++ (used.data ++
      ((" / " : String).data ++ spacesL (5 - total.data.length) ++ total.data ++
        (" MiB" : String).data))) from rfl,
    pyStripL_spaces_append, pyStripL_spaces_append]
  have hshape2 : used.data ++ ((" / " : String).data ++
      spacesL (5 - total.data.length) ++ total.data ++ (" MiB" : String).data) =
      sc :: ((srest ++ (" / " : String).data ++ spacesL (5 - total.data.length) ++
        total.data ++ [' ', 'M', 'i']) ++ ['B']) := by
    rw [hsd]
    simp [show (" MiB" : String).data = [' ', 'M', 'i'] ++ ['B'] from rfl,
      List.append_assoc]
  rw [hshape2, pyStripL_of_ends sc 'B' _ hsc rfl, ← hshape2]
  have hdd : (used ++ " / " ++ padLeft total 5 ++ " MiB").data =
      used.data ++ ((" / " : String).data ++ spacesL (5 - total.data.length) ++
        total.data ++ (" MiB" : String).data) := by
    simp [sdata_append, padLeft, List.append_assoc]
  have hfin : String.mk (used.data ++ ((" / " : String).data ++
      spacesL (5 - total.data.length) ++ total.data ++ (" MiB" : String).data)) =
      used ++ " / " ++ padLeft total 5 ++ " MiB" := by
    rw [← hdd]
  exact congrArg some hfin

/-- Extracting the cells from a rendered line recovers the record's fields. -/
theorem extractCells_render (g : GPUInfo) (h : c10GoodB g = true) :
    extractCells (entryParts (renderLineStr g)) =
      some (g.model.getD "", pyBool (g.num_procs == 0), toString g.num_procs,
        g.gpu_util ++ " %", g.used_mem ++ " / " ++ padLeft g.total_mem 5 ++ " MiB") := by
  obtain ⟨hsome, hm, hu, hus, ht⟩ := c10GoodB_elim g h
  obtain ⟨⟨uc, urest, hud, huc⟩, hup, hun, hucol⟩ := goodValueB_elim _ hu
  obtain ⟨⟨sc, srest, hsd, hsc⟩, hsp, hsn, hscol⟩ := goodValueB_elim _ hus
  obtain ⟨htp, htn, htcol⟩ := goodTotalB_elim _ ht
  rw [entryParts_render g h]
  simp only [extractCells]
  rw [colonSecond_free, colonSecond_procs,
    colonSecond_util g.gpu_util uc urest hud huc hucol,
    colonSecond_memory g.used_mem g.total_mem sc srest hsd hsc hscol htcol]
  rfl

theorem not_mem_append_cons (c a : Char) {x y : List Char} (hx : c ∉ x)
    (hne : c ≠ a) (hy : c ∉ y) : c ∉ x ++ a :: y := by
  intro hm
  rcases List.mem_append.mp hm with h | h
  · exact hx h
  · rcases List.mem_cons.mp h with he | h
    · exact hne he
    · exact hy h

theorem nl_seg0 (g : GPUInfo) (hmn : '\n' ∉ (g.model.getD "").data) :
    '\n' ∉ c10Seg0 g := by
  unfold c10Seg0
  exact not_mem_app _ (not_mem_app _ hmn (not_mem_spacesL _ _ (by decide))) (by decide)

theorem nl_seg1 (g : GPUInfo) : '\n' ∉ c10Seg1 g := by
  unfold c10Seg1
  exact not_mem_app _ (not_mem_app _ (not_mem_app _ (by decide)
    (not_mem_pyBool _ _ (by decide) (by decide)))
    (not_mem_spacesL _ _ (by decide))) (by decide)

theorem nl_seg2 (g : GPUInfo) : '\n' ∉ c10Seg2 g := by
  unfold c10Seg2
  exact not_mem_app _ (not_mem_app _ (not_mem_app _ (by decide)
    (not_mem_spacesL _ _ (by decide))) (repr_clean g.num_procs).2.1) (by decide)

theorem nl_seg3 (g : GPUInfo) (hun : '\n' ∉ g.gpu_util.data) : '\n' ∉ c10Seg3 g := by
  unfold c10Seg3
  exact not_mem_app _ (not_mem_app _ (not_mem_app _ (by decide)
    (not_mem_spacesL _ _ (by decide))) hun) (by decide)

theorem nl_seg4 (g : GPUInfo) (hsn : '\n' ∉ g.used_mem.data)
    (htn : '\n' ∉ g.total_mem.data) : '\n' ∉ c10Seg4 g := by
  unfold c10Seg4
  exact not_mem_app _ (not_mem_app _ (not_mem_app _ (not_mem_app _ (not_mem_app _
    (not_mem_app _ (by decide) (not_mem_spacesL _ _ (by decide))) hsn) (by decide))
    (not_mem_spacesL _ _ (by decide))) htn) (by decide)

/-- A rendered line of a good record contains no newline. -/
theorem renderLine_no_newline (g : GPUInfo) (h : c10GoodB g = true) :
    '\n' ∉ (renderLineStr g).data := by
  obtain ⟨hsome, hm, hu, hus, ht⟩ := c10GoodB_elim g h
  obtain ⟨hmstrip, hmp, hmn⟩ := goodModelB_elim _ hm
  obtain ⟨_, hup, hun, hucol⟩ := goodValueB_elim _ hu
  obtain ⟨_, hsp, hsn, hscol⟩ := goodValueB_elim _ hus
  obtain ⟨htp, htn, htcol⟩ := goodTotalB_elim _ ht
  rw [renderLine_data g]
  exact not_mem_append_cons _ _ (nl_seg0 g hmn) (by decide)
    (not_mem_append_cons _ _ (nl_seg1 g) (by decide)
      (not_mem_append_cons _ _ (nl_seg2 g) (by decide)
        (not_mem_append_cons _ _ (nl_seg3 g hun) (by decide)
          (nl_seg4 g hsn htn))))

/-- Rendering a list of records with present models yields the line list. -/
theorem renderAll_ok (records : List GPUInfo)
    (h : ∀ g ∈ records, g.model.isSome = true) :
    renderAll records = .ok (records.map renderLineStr) := by
  induction records with
  | nil => rfl
  | cons g gs ih =>
    obtain ⟨m, hm⟩ := Option.isSome_iff_exists.mp (h g (by simp))
    rw [renderAll, show g.render = .ok (renderLineStr g) from by
      unfold GPUInfo.render
      rw [hm],
      ih (fun g' hg' => h g' (by simp [hg']))]
    rfl

/-- Splitting a separator-joined list recovers the pieces. -/
theorem pySplit_pyJoin (c : Char) : ∀ (ls : List String), ls ≠ [] →
    (∀ s ∈ ls, c ∉ s.data) → pySplit c (pyJoin c ls) = ls := by
  intro ls
  induction ls with
  | nil => intro hne _; exact absurd rfl hne
  | cons s rest ih =>
    intro _ h
    cases rest with
    | nil =>
      show pySplit c (pyJoin c [s]) = [s]
      unfold pyJoin pySplit
      rw [splitCharL_not_mem c _ (h s (by simp))]
      rfl
    | cons t ts =>
      have hjoin : (pyJoin c (s :: t :: ts)).data =
          s.data ++ c :: (pyJoin c (t :: ts)).data := rfl
      unfold pySplit
      rw [hjoin, splitCharL_append c _ _ (h s (by simp))]
      have := ih (by simp) (fun u hu => h u (by simp [hu]))
      unfold pySplit at this
      rw [List.map_cons, this]

/-- The renderer's second pass on a good record list produces exactly the
amended claim's rows. -/
theorem secondPass_render (host : String) :
    ∀ (records : List GPUInfo) (i : Nat), (∀ g ∈ records, c10GoodB g = true) →
      secondPassEntries host (records.map renderLineStr) i =
        c10ExpectedRows host records i := by
  intro records
  induction records with
  | nil => intro i _; rfl
  | cons g gs ih =>
    intro i hall
    have hg := hall g (by simp)
    have hlen : ((entryParts (renderLineStr g)).length != 5) = false := by
      rw [entryParts_render g hg]
      rfl
    rw [List.map_cons, secondPassEntries, hlen]
    simp only [Bool.false_eq_true, if_false]
    rw [extractCells_render g hg, ih (i + 1) (fun g' hg' => hall g' (by simp [hg']))]
    rfl

/-- **C10, counterexample** The claim conditions only the model string (no
`'|'`, no newline), but the renderer fails to recover the cells for records
whose other fields contain the split characters `'|'`, `'\n'` or `':'` or
leading whitespace, for models with surrounding whitespace or with a
reserved status prefix, and the memory cell keeps the width-5 padding of a
short total.  Each instance below satisfies the claim's stated precondition
and refutes its conclusion. -/
theorem c10_counterexample :
    c10FeedRows badUtilRecord ≠ c10ClaimRows "h" [badUtilRecord] 0 ∧
    c10FeedRows badUtilRecord =
      [["h", "Parse error: Invalid format: expected 5 parts, got 6",
        placeholderDash, placeholderDash, placeholderDash, placeholderDash]] ∧
    c10FeedRows c10exNewlineUtil ≠ c10ClaimRows "h" [c10exNewlineUtil] 0 ∧
    c10FeedRows c10exColonUtil ≠ c10ClaimRows "h" [c10exColonUtil] 0 ∧
    c10FeedRows c10exLeadSpaceUtil ≠ c10ClaimRows "h" [c10exLeadSpaceUtil] 0 ∧
    c10FeedRows c10exSpaceModel ≠ c10ClaimRows "h" [c10exSpaceModel] 0 ∧
    c10FeedRows c10exShortTotal ≠ c10ClaimRows "h" [c10exShortTotal] 0 ∧
    c10FeedRows c10exErrorModel ≠ c10ClaimRows "h" [c10exErrorModel] 0 := by
  exact ⟨by decide, by decide, by decide, by decide, by decide, by decide,
    by decide, by decide⟩

/-- **C10, amended** For every non-empty list of records whose model has no
surrounding whitespace and no `'|'`/newline, whose utilization and used-
memory strings are non-empty, start with a non-space and contain no
`'|'`/newline/`':'`, whose total-memory string contains no
`'|'`/newline/`':'`, and whose joined rendering does not collide with a
reserved status string, feeding the joined `parse_gpu_info` output to
`update_table` as a host's status yields exactly one row per record: the
cells recover the model, the free flag, the process count, the utilization
with the " %" suffix and the "used / total MiB" memory text (total
right-justified to width 5), with the hostname only on the first row. -/
theorem c10_amended_renderer_inverts (host : String) (records : List GPUInfo)
    (joined : String) (hne : records ≠ [])
    (hok : joinRender records = .ok joined)
    (hgood : ∀ g ∈ records, c10GoodB g = true)
    (hstr : statusIsStringy joined = false) :
    (update_table initTable [(host, joined)]).2 = c10ExpectedRows host records 0 := by
  have hsome : ∀ g ∈ records, g.model.isSome = true := fun g hg =>
    (c10GoodB_elim g (hgood g hg)).1
  have hjoined : joined = pyJoin '\n' (records.map renderLineStr) := by
    unfold joinRender at hok
    rw [renderAll_ok records hsome] at hok
    simpa [Except.map] using hok.symm
  have h1 : (update_table initTable [(host, joined)]).2 = rowsForHost host joined := by
    simp [update_table, dictUpdate, dictInsert, sortByKey, insertByKey, initTable]
  rw [h1]
  unfold rowsForHost
  rw [hstr]
  simp only [Bool.false_eq_true, if_false]
  rw [hjoined, pySplit_pyJoin '\n' _ (fun hm => hne (by simpa using hm))
    (by
      intro s hs
      obtain ⟨g, hg, rfl⟩ := List.mem_map.mp hs
      exact renderLine_no_newline g (hgood g hg))]
  exact secondPass_render host records 0 hgood

set_option maxRecDepth 4000 in
/-- Witness for the amended C10 at a concrete two-record list. -/
theorem c10_amended_witness :
    (update_table initTable
      [("h", (joinRender c10WitnessRecords).toOption.getD "")]).2 =
      c10ExpectedRows "h" c10WitnessRecords 0 :=
  c10_amended_renderer_inverts "h" c10WitnessRecords
    ((joinRender c10WitnessRecords).toOption.getD "")
    (by decide) (by rfl) (by decide) (by decide)

end SshGpuChecker
